import Mathlib

/-!
Shallow embedding of `src/cores/stm32l4/CDC.cpp` (the USB CDC serial class
of the arduino-Longboard core): the ring-buffer pair, the transmit and
receive orchestration, and the event callback.  Machine integers are
modelled as `Nat` with explicit truncation (`add32`/`sub32`, bit masks)
at the places the source performs 32-bit unsigned arithmetic.  The device
stack (`stm32l4_usbd_cdc_*`) is modelled per its abstract contract: a
busy flag for the in-flight packet, a byte queue of received data, and a
log of the chunks handed to `transmit`.
-/

/-- Modelled from the spec: `CDC_RX_BUFFER_SIZE` is defined in `CDC.h`,
which is not part of the supplied sources.  The spec requires a
fixed power-of-two capacity (section 3) and its receive scenario uses
capacity 64 (section 8). -/
def CDC_RX_BUFFER_SIZE : ℕ := 64

/-- Modelled from the spec: `CDC_TX_BUFFER_SIZE` is defined in `CDC.h`,
which is not part of the supplied sources.  The spec requires a fixed
power-of-two capacity (section 3); 256 is taken as the transmit capacity. -/
def CDC_TX_BUFFER_SIZE : ℕ := 256

/-- Modelled from the spec: `USBD_CDC_FIFO_SIZE` comes from the device
stack headers, which are not part of the supplied sources.  The spec only
requires the derived packet ceiling to sit strictly below a multiple of
the 64-byte native packet size; 128 is taken as the FIFO size. -/
def USBD_CDC_FIFO_SIZE : ℕ := 128

/-- Packet-size ceiling, embedded from the macro in `CDC.cpp`:
`(((USBD_CDC_FIFO_SIZE + 63) & ~63) - 1)` in 32-bit unsigned arithmetic. -/
def CDC_TX_PACKET_SIZE : ℕ := ((USBD_CDC_FIFO_SIZE + 63) &&& 0xFFFFFFC0) - 1

/-- Modelled from the spec: `UART_RX_BUFFER_SIZE` is defined in the Uart
driver's header, which is not part of the supplied sources.  The bulk-read
loop of `CDC.cpp` clamps against this constant; the spec's ring-buffer
discipline (section 4.1) splits copies at the physical end of the buffer's
own backing array, so the value is modelled as the receive capacity. -/
def UART_RX_BUFFER_SIZE : ℕ := 64

/-- Modelled from the spec: device-state enumeration
{uninitialized, enabling, ready, suspended} (section 3); only the ordering
relative to the ready state is observed by the embedded code. -/
def USBD_CDC_STATE_INIT : ℕ := 1

/-- Modelled from the spec: the ready device state, above which reads and
writes are permitted. -/
def USBD_CDC_STATE_READY : ℕ := 3

/-- Modelled from the spec: bit of the event mask signalling that receive
data is available in the device stack. -/
def USBD_CDC_EVENT_RECEIVE : ℕ := 1

/-- Modelled from the spec: bit of the event mask signalling that the
in-flight transmit chunk completed. -/
def USBD_CDC_EVENT_TRANSMIT : ℕ := 2

/-- Wrapping 32-bit unsigned addition (`armv7m_atomic_add` and plain
`unsigned int` sums in the source). -/
def add32 (a b : ℕ) : ℕ := (a + b) % 2 ^ 32

/-- Wrapping 32-bit unsigned subtraction (`armv7m_atomic_sub` and plain
`unsigned int` differences in the source). -/
def sub32 (a b : ℕ) : ℕ := (2 ^ 32 + a - b) % 2 ^ 32

/-- Byte-array copy: `memcpy(&dst[off], src, src.length)` on a `List`
model of a fixed byte array. -/
def listCopy (dst : List ℕ) (off : ℕ) (src : List ℕ) : List ℕ :=
  dst.take off ++ src ++ dst.drop (off + src.length)

/-- Contiguous slice `l[off .. off+n)` of a byte array. -/
def listSlice (l : List ℕ) (off n : ℕ) : List ℕ := (l.drop off).take n

/-- Concatenation of a chunk log into the byte stream it carried. -/
def flat (l : List (List ℕ)) : List ℕ := l.foldr (· ++ ·) []

/-- Combined state of one `CDC` object together with the modelled device
stack: the fields of `class CDC` (`CDC.h`), the `stm32l4_usbd_cdc` device
handle's observable state, and logs of the outward-visible effects
(chunks handed to `transmit`, notification-callback firings). -/
structure CDCState where
  rx_data : List ℕ
  rx_read : ℕ
  rx_write : ℕ
  rx_count : ℕ
  tx_data : List ℕ
  tx_read : ℕ
  tx_write : ℕ
  tx_size : ℕ
  tx_count : ℕ
  tx_total : ℕ
  blocking : Bool
  devState : ℕ
  lineState : ℕ
  busy : Bool
  pending : List ℕ
  chunks : List (List ℕ)
  rxNotify : List ℕ
  txNotify : ℕ
  hasReceiveCallback : Bool
  hasTransmitCallback : Bool
  deriving Repr, DecidableEq

/-- State established by the constructor `CDC::CDC` (all cursors and
counters zero, blocking mode on, no callbacks registered) with a quiet
device stack; the device state and line state are environment inputs. -/
def initState (d l : ℕ) : CDCState :=
  { rx_data := List.replicate CDC_RX_BUFFER_SIZE 0
    rx_read := 0
    rx_write := 0
    rx_count := 0
    tx_data := List.replicate CDC_TX_BUFFER_SIZE 0
    tx_read := 0
    tx_write := 0
    tx_size := 0
    tx_count := 0
    tx_total := 0
    blocking := true
    devState := d
    lineState := l
    busy := false
    pending := []
    chunks := []
    rxNotify := []
    txNotify := 0
    hasReceiveCallback := false
    hasTransmitCallback := false }

namespace CDC

/-- Embeds `CDC::available`: returns `_rx_count`. -/
def available (s : CDCState) : ℕ := s.rx_count

/-- Embeds `CDC::availableForWrite`: 0 below the ready state, else
`CDC_TX_BUFFER_SIZE - _tx_count`. -/
def availableForWrite (s : CDCState) : ℕ :=
  if s.devState < USBD_CDC_STATE_READY then 0
  else CDC_TX_BUFFER_SIZE - s.tx_count

/-- Embeds `CDC::peek`: -1 when empty, else the byte at the read cursor. -/
def peek (s : CDCState) : Int :=
  if s.rx_count = 0 then -1
  else (s.rx_data.getD s.rx_read 0 : ℕ)

/-- Embeds the single-byte `CDC::read`: result is -1 when empty;
otherwise the byte at the read cursor is returned, the cursor advances
under the capacity mask and `_rx_count` is atomically decremented. -/
def read1 (s : CDCState) : CDCState × Int :=
  if s.rx_count = 0 then (s, -1)
  else
    let rx_read := s.rx_read
    let data := s.rx_data.getD rx_read 0
    ({ s with
        rx_read := (rx_read + 1) &&& (CDC_RX_BUFFER_SIZE - 1)
        rx_count := sub32 s.rx_count 1 }, (data : ℕ))

/-- Embeds one round of the bulk `CDC::read` loop body (entered with a
non-empty buffer): the span is clamped against `UART_RX_BUFFER_SIZE -
rx_read`, bytes are copied out of `_rx_data` (returned as the bytes
written to the caller's buffer), the read cursor advances under the
capacity mask and `_rx_count` is atomically decremented. -/
def rxPopStep (s : CDCState) : CDCState × ℕ × List ℕ :=
  let rx_count := s.rx_count
  let rx_read := s.rx_read
  let rx_count :=
    if rx_count > UART_RX_BUFFER_SIZE - rx_read then
      UART_RX_BUFFER_SIZE - rx_read
    else rx_count
  ({ s with
      rx_read := (rx_read + rx_count) &&& (CDC_RX_BUFFER_SIZE - 1)
      rx_count := sub32 s.rx_count rx_count },
   rx_count, listSlice s.rx_data rx_read rx_count)

/-- Embeds the `while (count < size)` loop of the bulk `CDC::read`:
each round stops on an empty buffer, otherwise runs `rxPopStep` and
accumulates its output.  Fuel bounds the recursion; the flag is true when
the loop exited by its own condition. -/
def readBulkLoop : ℕ → CDCState → ℕ → ℕ → List ℕ → CDCState × List ℕ × Bool
  | 0, s, _, _, out => (s, out, false)
  | fuel + 1, s, size, count, out =>
    if count < size then
      if s.rx_count = 0 then (s, out, true)
      else
        let p := rxPopStep s
        readBulkLoop fuel p.1 size (count + p.2.1) (out ++ p.2.2)
    else (s, out, true)

/-- Embeds the bulk `CDC::read(buffer, size)`. -/
def readBulk (fuel : ℕ) (s : CDCState) (size : ℕ) : CDCState × List ℕ × Bool :=
  readBulkLoop fuel s size 0 []

/-- Embeds the common chunk-size computation of the three transmit kick
sites: `tx_size = _tx_count`, clamped to the span up to the physical end
of `_tx_data` and then to `CDC_TX_PACKET_SIZE`. -/
def txChunkSize (s : CDCState) : ℕ :=
  let t := s.tx_count
  let t := if t > sub32 CDC_TX_BUFFER_SIZE s.tx_read then
    sub32 CDC_TX_BUFFER_SIZE s.tx_read else t
  if t > CDC_TX_PACKET_SIZE then CDC_TX_PACKET_SIZE else t

/-- Embeds `_tx_size = tx_size; stm32l4_usbd_cdc_transmit(_usbd_cdc,
&_tx_data[tx_read], tx_size)`: records the in-flight size, marks the
stack busy and logs the transmitted chunk's bytes. -/
def startTx (s : CDCState) : CDCState :=
  let n := txChunkSize s
  { s with
      tx_size := n
      busy := true
      chunks := s.chunks ++ [listSlice s.tx_data s.tx_read n] }

/-- Embeds one round of the `CDC::write` queueing loop body (entered with
free space available): the span is clamped to the free space, the
physical end of `_tx_data` and the bytes still to queue, the bytes are
copied in from the caller's buffer, the write cursor advances under the
capacity mask and `_tx_count` is atomically increased. -/
def txQueueStep (s : CDCState) (buffer : List ℕ) (size count : ℕ) :
    CDCState × ℕ :=
  let tx_count := sub32 CDC_TX_BUFFER_SIZE s.tx_count
  let tx_write := s.tx_write
  let tx_count :=
    if tx_count > sub32 CDC_TX_BUFFER_SIZE tx_write then
      sub32 CDC_TX_BUFFER_SIZE tx_write
    else tx_count
  let tx_count :=
    if tx_count > size - count then size - count else tx_count
  ({ s with
      tx_data := listCopy s.tx_data tx_write (listSlice buffer count tx_count)
      tx_write := (tx_write + tx_count) &&& (CDC_TX_BUFFER_SIZE - 1)
      tx_count := add32 s.tx_count tx_count },
   tx_count)

/-- Embeds the `while (count < size)` loop of `CDC::write`.  When the
buffer is full the source kicks a transmission if the stack is idle and
then spins in `while (CDC_TX_BUFFER_SIZE == _tx_count) armv7m_core_yield()`;
with no interleaved completion event that spin never exits, which the
embedding reports as an uncompleted result (flag false).  Otherwise one
round of `txQueueStep` queues bytes and the loop continues. -/
def writeLoop : ℕ → CDCState → List ℕ → ℕ → ℕ → CDCState × ℕ × Bool
  | 0, s, _, _, count => (s, count, false)
  | fuel + 1, s, buffer, size, count =>
    if count < size then
      if sub32 CDC_TX_BUFFER_SIZE s.tx_count = 0 then
        (if !s.busy then startTx s else s, count, false)
      else
        writeLoop fuel (txQueueStep s buffer size count).1 buffer size
          (count + (txQueueStep s buffer size count).2)
    else (s, count, true)

/-- Embeds the up-front clamp of `CDC::write`: when blocking mode is off
or the caller runs in interrupt context, the requested size is clamped to
the free space `CDC_TX_BUFFER_SIZE - _tx_count`. -/
def writeClamp (s : CDCState) (isr : Bool) (size0 : ℕ) : ℕ :=
  if !s.blocking || isr then
    if size0 > sub32 CDC_TX_BUFFER_SIZE s.tx_count then
      sub32 CDC_TX_BUFFER_SIZE s.tx_count
    else size0
  else size0

/-- Embeds the post-loop transmission kick of `CDC::write`: from
foreground context only, when the device stack is idle and data is
queued, the next chunk is started. -/
def writeKick (s : CDCState) (isr : Bool) : CDCState :=
  if !isr then
    if !s.busy then
      if s.tx_count ≠ 0 then startTx s else s
    else s
  else s

/-- Embeds the return path of `CDC::write` after the queueing loop: on
completion the post-loop kick runs and the queued byte count is returned;
an uncompleted loop result (the cooperative-yield spin) is passed
through. -/
def writeFinish (isr : Bool) (r : CDCState × ℕ × Bool) :
    CDCState × ℕ × Bool :=
  if r.2.2 then (writeKick r.1 isr, r.2.1, true) else r

/-- Embeds the bulk `CDC::write(buffer, size)`: rejection below the ready
state or with the RTS line bit clear, the up-front clamp (`writeClamp`)
when blocking is off or the caller is in interrupt context, the
`_tx_total` bump, the queueing loop and the post-loop kick.  The flag of
the result is false when the source would be spinning forever in the
cooperative-yield loop (or the fuel ran out). -/
def write (fuel : ℕ) (s : CDCState) (isr : Bool) (buffer : List ℕ)
    (size0 : ℕ) : CDCState × ℕ × Bool :=
  if s.devState < USBD_CDC_STATE_READY ∨ s.lineState &&& 2 = 0 then
    (s, 0, true)
  else
    writeFinish isr
      (writeLoop fuel
        { s with tx_total := add32 s.tx_total (writeClamp s isr size0) }
        buffer (writeClamp s isr size0) 0)

/-- Embeds the single-byte `CDC::write(data)`, which calls the bulk
variant with size 1. -/
def write1 (fuel : ℕ) (s : CDCState) (isr : Bool) (data : ℕ) :
    CDCState × ℕ × Bool :=
  write fuel s isr [data] 1

/-- Embeds one round of the inner receive drain of `CDC::EventCallback`
(entered with free space in the buffer): the request is clamped to the
span up to the physical end of `_rx_data`, bytes are pulled from the
device stack (`stm32l4_usbd_cdc_receive` delivers at most the requested
span from its queue), the write cursor advances under the capacity mask
and `_rx_count` is atomically increased. -/
def rxStep (s : CDCState) : CDCState × ℕ :=
  let rx_count := sub32 CDC_RX_BUFFER_SIZE s.rx_count
  let rx_write := s.rx_write
  let rx_count :=
    if rx_count > sub32 CDC_RX_BUFFER_SIZE rx_write then
      sub32 CDC_RX_BUFFER_SIZE rx_write
    else rx_count
  let delivered := s.pending.take (min rx_count s.pending.length)
  let rx_size := delivered.length
  ({ s with
      rx_data := listCopy s.rx_data rx_write delivered
      pending := s.pending.drop rx_size
      rx_write := (rx_write + rx_size) &&& (CDC_RX_BUFFER_SIZE - 1)
      rx_count := add32 s.rx_count rx_size },
   rx_size)

/-- Embeds the inner `do { ... } while (rx_size)` drain of the receive
branch of `CDC::EventCallback`: stop when the buffer has no free space,
otherwise run one `rxStep` round, accumulate its size into the round
total, and repeat while the stack delivered a non-zero chunk. -/
def rxInner : ℕ → CDCState → ℕ → CDCState × ℕ × Bool
  | 0, s, count => (s, count, false)
  | fuel + 1, s, count =>
    if sub32 CDC_RX_BUFFER_SIZE s.rx_count = 0 then (s, count, true)
    else
      let p := rxStep s
      if p.2 ≠ 0 then rxInner fuel p.1 (count + p.2)
      else (p.1, count + p.2, true)

/-- Embeds one round of the outer receive loop of `CDC::EventCallback`
(entered with a non-full buffer): records whether the buffer was empty,
runs the inner drain to completion (its fuel `pending + 2` always
suffices, as each continuing round consumes stack data), and fires the
receive-notification callback with the round's total when the buffer was
empty.  The flag is the inner drain's completion flag. -/
def rxRound (s : CDCState) : CDCState × Bool :=
  if s.rx_count = 0 ∧
      (rxInner (s.pending.length + 2) s 0).1.hasReceiveCallback then
    ({ (rxInner (s.pending.length + 2) s 0).1 with
        rxNotify := (rxInner (s.pending.length + 2) s 0).1.rxNotify ++
          [(rxInner (s.pending.length + 2) s 0).2.1] },
     (rxInner (s.pending.length + 2) s 0).2.2)
  else
    ((rxInner (s.pending.length + 2) s 0).1,
     (rxInner (s.pending.length + 2) s 0).2.2)

/-- Embeds the outer `while (_rx_count != CDC_RX_BUFFER_SIZE)` loop of
the receive branch of `CDC::EventCallback`: one `rxRound` per iteration,
repeating until the buffer is full.  Fuel bounds the outer rounds; the
flag is true when the loop exited by its own condition. -/
def rxOuter : ℕ → CDCState → CDCState × Bool
  | 0, s => (s, false)
  | fuel + 1, s =>
    if s.rx_count ≠ CDC_RX_BUFFER_SIZE then
      if (rxRound s).2 then rxOuter fuel (rxRound s).1
      else ((rxRound s).1, false)
    else (s, true)

/-- Embeds the transmit branch of `CDC::EventCallback`: advances the read
cursor past the completed in-flight chunk under the capacity mask,
atomically subtracts its size from `_tx_count` and `_tx_total`, clears
`_tx_size`, starts the next chunk when data remains queued, and fires the
transmit-notification callback when `_tx_total` reached zero. -/
def txEvent (s : CDCState) : CDCState :=
  let tx_size := s.tx_size
  let s := { s with
    tx_read := (s.tx_read + tx_size) &&& (CDC_TX_BUFFER_SIZE - 1)
    tx_count := sub32 s.tx_count tx_size
    tx_total := sub32 s.tx_total tx_size
    tx_size := 0 }
  let s := if s.tx_count ≠ 0 then startTx s else s
  if s.tx_total = 0 ∧ s.hasTransmitCallback then
    { s with txNotify := s.txNotify + 1 }
  else s

/-- Embeds `CDC::EventCallback(events)`: the receive branch (whose outer
loop may fail to exit, reported by a false flag, in which case the
transmit branch is never reached) followed by the transmit branch. -/
def EventCallback (fuel : ℕ) (s : CDCState) (events : ℕ) :
    CDCState × Bool :=
  if events &&& USBD_CDC_EVENT_RECEIVE ≠ 0 then
    let r := rxOuter fuel s
    if r.2 then
      if events &&& USBD_CDC_EVENT_TRANSMIT ≠ 0 then (txEvent r.1, true)
      else (r.1, true)
    else (r.1, false)
  else
    if events &&& USBD_CDC_EVENT_TRANSMIT ≠ 0 then (txEvent s, true)
    else (s, true)

/-- Hardware completion of the in-flight packet followed by the transmit
event: the stack reports idle (`stm32l4_usbd_cdc_done` true) and invokes
the callback with the transmit-complete event. -/
def evTxStep (s : CDCState) : CDCState :=
  (EventCallback 1 { s with busy := false } USBD_CDC_EVENT_TRANSMIT).1

/-- Repeated hardware completions until the stack is idle: drives the
queued transmit data out chunk by chunk through `txEvent`. -/
def drainAll : ℕ → CDCState → CDCState
  | 0, s => s
  | fuel + 1, s => if s.busy then drainAll fuel (evTxStep s) else s

end CDC

/-! ### Operation-level transition system

One step is one completed foreground operation (a `write` call that runs
to completion, a single or bulk `read`), one event-callback invocation
(receive events with any amount of processing fuel, since the receive
branch need not terminate; transmit events only when a packet is in
flight), or an environment action (data arriving in the device stack,
mode/state changes, callback registration). -/

inductive Step : CDCState → CDCState → Prop where
  | write (isr : Bool) (buffer : List ℕ) (size fuel : ℕ) (s : CDCState)
      (h : (CDC.write fuel s isr buffer size).2.2 = true) :
      Step s (CDC.write fuel s isr buffer size).1
  | read1 (s : CDCState) : Step s (CDC.read1 s).1
  | readBulk (fuel size : ℕ) (s : CDCState) :
      Step s (CDC.readBulk fuel s size).1
  | eventRx (fuel : ℕ) (s : CDCState) :
      Step s (CDC.EventCallback fuel s USBD_CDC_EVENT_RECEIVE).1
  | eventTx (s : CDCState) (h : s.busy = true) : Step s (CDC.evTxStep s)
  | arrive (bs : List ℕ) (s : CDCState) :
      Step s { s with pending := s.pending ++ bs }
  | blockOnOverrun (b : Bool) (s : CDCState) :
      Step s { s with blocking := b }
  | onReceive (s : CDCState) :
      Step s { s with hasReceiveCallback := true }
  | onTransmit (s : CDCState) :
      Step s { s with hasTransmitCallback := true }
  | setDevState (d : ℕ) (s : CDCState) : Step s { s with devState := d }
  | setLineState (l : ℕ) (s : CDCState) : Step s { s with lineState := l }

/-- States reachable from a freshly constructed `CDC` object under any
interleaving of the modelled operations. -/
inductive Reach : CDCState → Prop where
  | init (d l : ℕ) : Reach (initState d l)
  | step {s s' : CDCState} : Reach s → Step s s' → Reach s'

/-- Structural well-formedness of the buffer pair that every operation
preserves: occupancy counters within capacity, cursors within the backing
arrays, arrays of fixed physical size, and the transmit bookkeeping chain
relating the in-flight size, the occupancy and the outstanding total. -/
structure BufInv (s : CDCState) : Prop where
  rx_count_le : s.rx_count ≤ CDC_RX_BUFFER_SIZE
  rx_read_lt : s.rx_read < CDC_RX_BUFFER_SIZE
  rx_write_lt : s.rx_write < CDC_RX_BUFFER_SIZE
  rx_data_len : s.rx_data.length = CDC_RX_BUFFER_SIZE
  tx_count_le : s.tx_count ≤ CDC_TX_BUFFER_SIZE
  tx_read_lt : s.tx_read < CDC_TX_BUFFER_SIZE
  tx_write_lt : s.tx_write < CDC_TX_BUFFER_SIZE
  tx_data_len : s.tx_data.length = CDC_TX_BUFFER_SIZE
  size_le_count : s.tx_size ≤ s.tx_count
  count_eq_total : s.tx_count = s.tx_total
  idle_size : s.busy = false → s.tx_size = 0
  busy_size : s.busy = true → 1 ≤ s.tx_size

/-- Receive-event scenario with an idle device stack: device ready, both
buffers empty, no data pending in the stack, no callbacks registered. -/
def emptyRxState : CDCState := initState USBD_CDC_STATE_READY 3

/-- Receive-event scenario with an idle device stack and a registered
receive-notification callback. -/
def rxCbState : CDCState :=
  { initState USBD_CDC_STATE_READY 3 with hasReceiveCallback := true }

/-- Ready device whose receive buffer holds the two queued bytes 7 and 9
(oldest first, read cursor at 0). -/
def twoByteRxState : CDCState :=
  { initState USBD_CDC_STATE_READY 3 with
      rx_data := listCopy (initState USBD_CDC_STATE_READY 3).rx_data 0 [7, 9]
      rx_count := 2 }

/-- Echo environment action: the byte stream of all chunks the stack has
transmitted is appended to the stack's receive queue (a loopback wire). -/
def echoStep (s : CDCState) : CDCState :=
  { s with pending := s.pending ++ flat s.chunks }

/-- Write-drain-echo-read pipeline: a bulk `write` of `bs` from the
freshly constructed ready state, hardware completions until the stack is
idle, the transmitted chunk stream echoed into the stack's receive queue,
one receive-event invocation, and a bulk `read` of the full receive
capacity; the result is the byte sequence the read returns. -/
def roundTrip (bs : List ℕ) : List ℕ :=
  (CDC.readBulk (CDC_RX_BUFFER_SIZE + 2)
    (CDC.EventCallback 2
      (echoStep (CDC.drainAll (bs.length + 1)
        (CDC.write (bs.length + 2) (initState USBD_CDC_STATE_READY 3) false
          bs bs.length).1))
      USBD_CDC_EVENT_RECEIVE).1
    CDC_RX_BUFFER_SIZE).2.1

/-- Transmit state after the queueing loop of a bulk `write` of `bs`
(length at most the capacity) from the freshly constructed ready state:
the bytes sit at the start of `_tx_data`, the cursors and counters
reflect one non-wrapping copy. -/
def wMid (bs : List ℕ) : CDCState :=
  { initState USBD_CDC_STATE_READY 3 with
      tx_data := bs ++ List.replicate (CDC_TX_BUFFER_SIZE - bs.length) 0
      tx_write := bs.length &&& (CDC_TX_BUFFER_SIZE - 1)
      tx_count := bs.length
      tx_total := bs.length }

/-- State after the same `write` completes, including the post-loop kick
that hands the whole of `bs` (within the packet ceiling) to the stack. -/
def wDone (bs : List ℕ) : CDCState :=
  { wMid bs with
      tx_size := bs.length
      busy := true
      chunks := [bs] }

/-- State after the transmit-complete event for that single chunk. -/
def txDrained (bs : List ℕ) : CDCState :=
  { wDone bs with
      busy := false
      tx_read := bs.length &&& (CDC_TX_BUFFER_SIZE - 1)
      tx_count := 0
      tx_total := 0
      tx_size := 0 }

/-- State with the transmitted byte stream echoed into the device stack's
receive queue. -/
def echoed (bs : List ℕ) : CDCState :=
  { txDrained bs with pending := bs }

/-- State after the receive event drains the echo into the receive
buffer. -/
def rxLoaded (bs : List ℕ) : CDCState :=
  { echoed bs with
      rx_data := bs ++ List.replicate (CDC_RX_BUFFER_SIZE - bs.length) 0
      rx_write := bs.length &&& (CDC_RX_BUFFER_SIZE - 1)
      rx_count := bs.length
      pending := [] }

/-! ### Arithmetic helper lemmas -/

theorem sub32_eq {a b : ℕ} (hba : b ≤ a) (ha : a < 2 ^ 32) :
    sub32 a b = a - b := by
  have h32 : (2 : ℕ) ^ 32 = 4294967296 := by norm_num
  unfold sub32
  rw [h32] at ha ⊢
  omega

theorem add32_eq {a b : ℕ} (h : a + b < 2 ^ 32) : add32 a b = a + b := by
  unfold add32
  exact Nat.mod_eq_of_lt h

theorem sub32_self (a : ℕ) (ha : a < 2 ^ 32) : sub32 a a = 0 := by
  rw [sub32_eq le_rfl ha]
  omega

theorem and63_eq_mod (x : ℕ) : x &&& 63 = x % 64 := by
  have h := Nat.and_pow_two_sub_one_eq_mod x 6
  norm_num at h
  exact h

theorem and255_eq_mod (x : ℕ) : x &&& 255 = x % 256 := by
  have h := Nat.and_pow_two_sub_one_eq_mod x 8
  norm_num at h
  exact h

theorem and63_lt (x : ℕ) : x &&& 63 < 64 := by
  rw [and63_eq_mod]; omega

theorem and255_lt (x : ℕ) : x &&& 255 < 256 := by
  rw [and255_eq_mod]; omega

theorem and63_small {x : ℕ} (h : x < 64) : x &&& 63 = x := by
  rw [and63_eq_mod]; omega

theorem and255_small {x : ℕ} (h : x < 256) : x &&& 255 = x := by
  rw [and255_eq_mod]; omega

theorem listCopy_length {dst src : List ℕ} {off : ℕ}
    (h : off + src.length ≤ dst.length) :
    (listCopy dst off src).length = dst.length := by
  unfold listCopy
  simp [List.length_take, List.length_drop]
  omega

theorem listCopy_nil (dst : List ℕ) (off : ℕ) :
    listCopy dst off [] = dst := by
  unfold listCopy
  simp


namespace CDC

theorem rxStep_frame (s : CDCState) :
    (rxStep s).1 =
      { s with
          rx_data := (rxStep s).1.rx_data
          pending := (rxStep s).1.pending
          rx_write := (rxStep s).1.rx_write
          rx_count := (rxStep s).1.rx_count } := rfl

theorem rxStep_bounds (s : CDCState)
    (h1 : s.rx_count ≤ CDC_RX_BUFFER_SIZE)
    (h2 : s.rx_write < CDC_RX_BUFFER_SIZE)
    (h3 : s.rx_data.length = CDC_RX_BUFFER_SIZE) :
    (rxStep s).2 ≤ CDC_RX_BUFFER_SIZE - s.rx_count ∧
    (rxStep s).1.rx_count = s.rx_count + (rxStep s).2 ∧
    (rxStep s).1.rx_write < CDC_RX_BUFFER_SIZE ∧
    (rxStep s).1.rx_data.length = CDC_RX_BUFFER_SIZE := by
  have hfree : sub32 CDC_RX_BUFFER_SIZE s.rx_count =
      CDC_RX_BUFFER_SIZE - s.rx_count :=
    sub32_eq h1 (by norm_num [CDC_RX_BUFFER_SIZE])
  have hspan : sub32 CDC_RX_BUFFER_SIZE s.rx_write =
      CDC_RX_BUFFER_SIZE - s.rx_write :=
    sub32_eq (Nat.le_of_lt h2) (by norm_num [CDC_RX_BUFFER_SIZE])
  unfold rxStep
  dsimp only
  rw [hfree, hspan]
  set n0 := if CDC_RX_BUFFER_SIZE - s.rx_count > CDC_RX_BUFFER_SIZE - s.rx_write
    then CDC_RX_BUFFER_SIZE - s.rx_write
    else CDC_RX_BUFFER_SIZE - s.rx_count with hn0
  have hn0b : n0 ≤ CDC_RX_BUFFER_SIZE - s.rx_count ∧
      n0 ≤ CDC_RX_BUFFER_SIZE - s.rx_write := by
    rw [hn0]; split <;> omega
  have hdlen : (s.pending.take (min n0 s.pending.length)).length ≤ n0 := by
    simp
  have hd64 : s.rx_count +
      (s.pending.take (min n0 s.pending.length)).length ≤
      CDC_RX_BUFFER_SIZE := by
    have := hn0b.1
    omega
  refine ⟨hdlen.trans hn0b.1, ?_, ?_, ?_⟩
  · apply add32_eq
    have : CDC_RX_BUFFER_SIZE < 2 ^ 32 := by norm_num [CDC_RX_BUFFER_SIZE]
    omega
  · simpa [CDC_RX_BUFFER_SIZE] using and63_lt (s.rx_write +
      (s.pending.take (min n0 s.pending.length)).length)
  · rw [listCopy_length]
    · exact h3
    · rw [h3]
      have := hdlen.trans hn0b.2
      omega

theorem rxInner_frame : ∀ (fuel : ℕ) (s : CDCState) (count : ℕ),
    (rxInner fuel s count).1 =
      { s with
          rx_data := (rxInner fuel s count).1.rx_data
          pending := (rxInner fuel s count).1.pending
          rx_write := (rxInner fuel s count).1.rx_write
          rx_count := (rxInner fuel s count).1.rx_count } := by
  intro fuel
  induction fuel with
  | zero => intro s count; rfl
  | succ n ih =>
    intro s count
    rw [rxInner]
    split
    · rfl
    · dsimp only
      split
      · rw [ih, rxStep_frame s]
      · rw [rxStep_frame s]

theorem rxInner_bounds : ∀ (fuel : ℕ) (s : CDCState) (count : ℕ),
    s.rx_count ≤ CDC_RX_BUFFER_SIZE → s.rx_write < CDC_RX_BUFFER_SIZE →
    s.rx_data.length = CDC_RX_BUFFER_SIZE →
    (rxInner fuel s count).1.rx_count ≤ CDC_RX_BUFFER_SIZE ∧
    (rxInner fuel s count).1.rx_write < CDC_RX_BUFFER_SIZE ∧
    (rxInner fuel s count).1.rx_data.length = CDC_RX_BUFFER_SIZE := by
  intro fuel
  induction fuel with
  | zero => exact fun s count h1 h2 h3 => ⟨h1, h2, h3⟩
  | succ n ih =>
    intro s count h1 h2 h3
    rw [rxInner]
    split
    · exact ⟨h1, h2, h3⟩
    · dsimp only
      have hb := rxStep_bounds s h1 h2 h3
      split
      · exact ih _ _ (by omega) hb.2.2.1 hb.2.2.2
      · dsimp only
        exact ⟨by omega, hb.2.2.1, hb.2.2.2⟩

end CDC

namespace CDC

theorem rxRound_frame (s : CDCState) :
    (rxRound s).1 =
      { s with
          rx_data := (rxRound s).1.rx_data
          pending := (rxRound s).1.pending
          rx_write := (rxRound s).1.rx_write
          rx_count := (rxRound s).1.rx_count
          rxNotify := (rxRound s).1.rxNotify } := by
  rw [rxRound]
  split
  · rw [rxInner_frame]
  · rw [rxInner_frame]

theorem rxOuter_frame : ∀ (fuel : ℕ) (s : CDCState),
    (rxOuter fuel s).1 =
      { s with
          rx_data := (rxOuter fuel s).1.rx_data
          pending := (rxOuter fuel s).1.pending
          rx_write := (rxOuter fuel s).1.rx_write
          rx_count := (rxOuter fuel s).1.rx_count
          rxNotify := (rxOuter fuel s).1.rxNotify } := by
  intro fuel
  induction fuel with
  | zero => intro s; rfl
  | succ n ih =>
    intro s
    rw [rxOuter]
    split
    · split
      · rw [ih, rxRound_frame]
      · rw [rxRound_frame]
    · rfl

theorem rxOuter_bounds : ∀ (fuel : ℕ) (s : CDCState),
    s.rx_count ≤ CDC_RX_BUFFER_SIZE → s.rx_write < CDC_RX_BUFFER_SIZE →
    s.rx_data.length = CDC_RX_BUFFER_SIZE →
    (rxOuter fuel s).1.rx_count ≤ CDC_RX_BUFFER_SIZE ∧
    (rxOuter fuel s).1.rx_write < CDC_RX_BUFFER_SIZE ∧
    (rxOuter fuel s).1.rx_data.length = CDC_RX_BUFFER_SIZE := by
  intro fuel
  induction fuel with
  | zero => exact fun s h1 h2 h3 => ⟨h1, h2, h3⟩
  | succ n ih =>
    intro s h1 h2 h3
    have hb := rxInner_bounds (s.pending.length + 2) s 0 h1 h2 h3
    have hr : (rxRound s).1.rx_count ≤ CDC_RX_BUFFER_SIZE ∧
        (rxRound s).1.rx_write < CDC_RX_BUFFER_SIZE ∧
        (rxRound s).1.rx_data.length = CDC_RX_BUFFER_SIZE := by
      rw [rxRound]
      split
      · exact hb
      · exact hb
    rw [rxOuter]
    split
    · split
      · exact ih _ hr.1 hr.2.1 hr.2.2
      · exact hr
    · exact ⟨h1, h2, h3⟩

end CDC

namespace CDC

theorem txChunkSize_le_count {s : CDCState}
    (hr : s.tx_read < CDC_TX_BUFFER_SIZE) :
    txChunkSize s ≤ s.tx_count := by
  unfold txChunkSize
  have hspan : sub32 CDC_TX_BUFFER_SIZE s.tx_read =
      CDC_TX_BUFFER_SIZE - s.tx_read :=
    sub32_eq (Nat.le_of_lt hr) (by norm_num [CDC_TX_BUFFER_SIZE])
  dsimp only
  rw [hspan]
  split <;> split <;> omega

theorem txChunkSize_le_packet {s : CDCState}
    (hr : s.tx_read < CDC_TX_BUFFER_SIZE) :
    txChunkSize s ≤ CDC_TX_PACKET_SIZE := by
  unfold txChunkSize
  have hspan : sub32 CDC_TX_BUFFER_SIZE s.tx_read =
      CDC_TX_BUFFER_SIZE - s.tx_read :=
    sub32_eq (Nat.le_of_lt hr) (by norm_num [CDC_TX_BUFFER_SIZE])
  dsimp only
  rw [hspan]
  have hp : CDC_TX_PACKET_SIZE = 127 := by decide
  split <;> split <;> omega

theorem txChunkSize_pos {s : CDCState}
    (hr : s.tx_read < CDC_TX_BUFFER_SIZE) (hc : 1 ≤ s.tx_count) :
    1 ≤ txChunkSize s := by
  unfold txChunkSize
  have hspan : sub32 CDC_TX_BUFFER_SIZE s.tx_read =
      CDC_TX_BUFFER_SIZE - s.tx_read :=
    sub32_eq (Nat.le_of_lt hr) (by norm_num [CDC_TX_BUFFER_SIZE])
  have hp : CDC_TX_PACKET_SIZE = 127 := by decide
  dsimp only
  rw [hspan]
  have hB : CDC_TX_BUFFER_SIZE = 256 := by decide
  split <;> split <;> omega

theorem startTx_frame (s : CDCState) :
    startTx s =
      { s with
          tx_size := txChunkSize s
          busy := true
          chunks := s.chunks ++ [listSlice s.tx_data s.tx_read (txChunkSize s)] } :=
  rfl

/-- Preservation of the well-formedness invariant by the transmit branch
of the event callback, run at a hardware packet completion. -/
theorem evTxStep_inv {s : CDCState} (hs : BufInv s) (hb : s.busy = true) :
    BufInv (evTxStep s) := by
  have hsize := hs.size_le_count
  have hcount := hs.tx_count_le
  have hread := hs.tx_read_lt
  have hB : CDC_TX_BUFFER_SIZE = 256 := by decide
  have hsub : sub32 s.tx_count s.tx_size = s.tx_count - s.tx_size :=
    sub32_eq hsize (by omega)
  have hsubt : sub32 s.tx_total s.tx_size = s.tx_total - s.tx_size := by
    apply sub32_eq (by rw [← hs.count_eq_total]; exact hsize)
    rw [← hs.count_eq_total]; omega
  show BufInv (EventCallback 1 { s with busy := false } USBD_CDC_EVENT_TRANSMIT).1
  rw [EventCallback]
  norm_num [USBD_CDC_EVENT_RECEIVE, USBD_CDC_EVENT_TRANSMIT]
  rw [txEvent]
  dsimp only
  rw [hsub, hsubt]
  set s1 : CDCState := { s with
    busy := false
    tx_read := (s.tx_read + s.tx_size) &&& (CDC_TX_BUFFER_SIZE - 1)
    tx_count := s.tx_count - s.tx_size
    tx_total := s.tx_total - s.tx_size
    tx_size := 0 } with hs1
  have hs1read : s1.tx_read < CDC_TX_BUFFER_SIZE := by
    rw [hs1]
    simpa [CDC_TX_BUFFER_SIZE] using and255_lt (s.tx_read + s.tx_size)
  have hs1inv : BufInv s1 := by
    constructor <;> rw [hs1] <;> dsimp only
    · exact hs.rx_count_le
    · exact hs.rx_read_lt
    · exact hs.rx_write_lt
    · exact hs.rx_data_len
    · omega
    · exact hs1read
    · exact hs.tx_write_lt
    · exact hs.tx_data_len
    · omega
    · rw [hs.count_eq_total]
    · intro; rfl
    · intro h; cases h
  split
  · rename_i hne
    rw [startTx_frame]
    have hle := txChunkSize_le_count (s := s1) hs1read
    have hceq : s1.tx_count = s.tx_count - s.tx_size := rfl
    have hpos := txChunkSize_pos (s := s1) hs1read (by rw [hceq]; omega)
    split
    · constructor <;> dsimp only
      · exact hs1inv.rx_count_le
      · exact hs1inv.rx_read_lt
      · exact hs1inv.rx_write_lt
      · exact hs1inv.rx_data_len
      · exact hs1inv.tx_count_le
      · exact hs1inv.tx_read_lt
      · exact hs1inv.tx_write_lt
      · exact hs1inv.tx_data_len
      · exact hle
      · exact hs1inv.count_eq_total
      · intro h; cases h
      · intro _; exact hpos
    · constructor <;> dsimp only
      · exact hs1inv.rx_count_le
      · exact hs1inv.rx_read_lt
      · exact hs1inv.rx_write_lt
      · exact hs1inv.rx_data_len
      · exact hs1inv.tx_count_le
      · exact hs1inv.tx_read_lt
      · exact hs1inv.tx_write_lt
      · exact hs1inv.tx_data_len
      · exact hle
      · exact hs1inv.count_eq_total
      · intro h; cases h
      · intro _; exact hpos
  · split
    · constructor <;> dsimp only
      · exact hs1inv.rx_count_le
      · exact hs1inv.rx_read_lt
      · exact hs1inv.rx_write_lt
      · exact hs1inv.rx_data_len
      · exact hs1inv.tx_count_le
      · exact hs1inv.tx_read_lt
      · exact hs1inv.tx_write_lt
      · exact hs1inv.tx_data_len
      · exact hs1inv.size_le_count
      · exact hs1inv.count_eq_total
      · exact hs1inv.idle_size
      · exact hs1inv.busy_size
    · exact hs1inv

end CDC

namespace CDC

theorem read1_frame (s : CDCState) :
    (read1 s).1 =
      { s with
          rx_read := (read1 s).1.rx_read
          rx_count := (read1 s).1.rx_count } := by
  rw [read1]
  split <;> rfl

theorem read1_bounds (s : CDCState)
    (h1 : s.rx_count ≤ CDC_RX_BUFFER_SIZE) :
    (read1 s).1.rx_count ≤ CDC_RX_BUFFER_SIZE ∧
    (read1 s).1.rx_read < CDC_RX_BUFFER_SIZE ∨ (read1 s).1 = s := by
  rw [read1]
  split
  · right; rfl
  · left
    dsimp only
    constructor
    · rename_i hne
      have : sub32 s.rx_count 1 = s.rx_count - 1 :=
        sub32_eq (by omega) (by norm_num [CDC_RX_BUFFER_SIZE] at h1; omega)
      rw [this]
      omega
    · simpa [CDC_RX_BUFFER_SIZE] using and63_lt (s.rx_read + 1)

theorem rxPopStep_frame (s : CDCState) :
    (rxPopStep s).1 =
      { s with
          rx_read := (rxPopStep s).1.rx_read
          rx_count := (rxPopStep s).1.rx_count } := rfl

theorem rxPopStep_bounds (s : CDCState)
    (h1 : s.rx_count ≤ CDC_RX_BUFFER_SIZE)
    (h2 : s.rx_read < CDC_RX_BUFFER_SIZE) :
    (rxPopStep s).1.rx_count ≤ CDC_RX_BUFFER_SIZE ∧
    (rxPopStep s).1.rx_read < CDC_RX_BUFFER_SIZE := by
  unfold rxPopStep
  dsimp only
  have hU : UART_RX_BUFFER_SIZE = CDC_RX_BUFFER_SIZE := by decide
  set n0 := if s.rx_count > UART_RX_BUFFER_SIZE - s.rx_read then
      UART_RX_BUFFER_SIZE - s.rx_read
    else s.rx_count with hn0
  have hn0le : n0 ≤ s.rx_count := by
    rw [hn0, hU]; split <;> omega
  constructor
  · have : sub32 s.rx_count n0 = s.rx_count - n0 :=
      sub32_eq hn0le (by norm_num [CDC_RX_BUFFER_SIZE] at h1; omega)
    rw [this]
    omega
  · simpa [CDC_RX_BUFFER_SIZE] using and63_lt (s.rx_read + n0)

theorem readBulkLoop_frame : ∀ (fuel : ℕ) (s : CDCState)
    (size count : ℕ) (out : List ℕ),
    (readBulkLoop fuel s size count out).1 =
      { s with
          rx_read := (readBulkLoop fuel s size count out).1.rx_read
          rx_count := (readBulkLoop fuel s size count out).1.rx_count } := by
  intro fuel
  induction fuel with
  | zero => intro s size count out; rfl
  | succ n ih =>
    intro s size count out
    rw [readBulkLoop]
    split
    · split
      · rfl
      · dsimp only
        rw [ih, rxPopStep_frame s]
    · rfl

theorem readBulkLoop_bounds : ∀ (fuel : ℕ) (s : CDCState)
    (size count : ℕ) (out : List ℕ),
    s.rx_count ≤ CDC_RX_BUFFER_SIZE → s.rx_read < CDC_RX_BUFFER_SIZE →
    (readBulkLoop fuel s size count out).1.rx_count ≤ CDC_RX_BUFFER_SIZE ∧
    (readBulkLoop fuel s size count out).1.rx_read < CDC_RX_BUFFER_SIZE := by
  intro fuel
  induction fuel with
  | zero => exact fun s size count out h1 h2 => ⟨h1, h2⟩
  | succ n ih =>
    intro s size count out h1 h2
    rw [readBulkLoop]
    split
    · split
      · exact ⟨h1, h2⟩
      · dsimp only
        have hb := rxPopStep_bounds s h1 h2
        exact ih _ _ _ _ hb.1 hb.2
    · exact ⟨h1, h2⟩

end CDC

namespace CDC

theorem txQueueStep_frame (s : CDCState) (buffer : List ℕ) (size count : ℕ) :
    (txQueueStep s buffer size count).1 =
      { s with
          tx_data := (txQueueStep s buffer size count).1.tx_data
          tx_write := (txQueueStep s buffer size count).1.tx_write
          tx_count := (txQueueStep s buffer size count).1.tx_count } := rfl

theorem txQueueStep_bounds (s : CDCState) (buffer : List ℕ)
    (size count : ℕ)
    (h1 : s.tx_count ≤ CDC_TX_BUFFER_SIZE)
    (h2 : s.tx_write < CDC_TX_BUFFER_SIZE)
    (h3 : s.tx_data.length = CDC_TX_BUFFER_SIZE)
    (hfree : s.tx_count ≠ CDC_TX_BUFFER_SIZE)
    (hlt : count < size) :
    1 ≤ (txQueueStep s buffer size count).2 ∧
    (txQueueStep s buffer size count).2 ≤ size - count ∧
    (txQueueStep s buffer size count).1.tx_count =
      s.tx_count + (txQueueStep s buffer size count).2 ∧
    (txQueueStep s buffer size count).1.tx_count ≤ CDC_TX_BUFFER_SIZE ∧
    (txQueueStep s buffer size count).1.tx_write < CDC_TX_BUFFER_SIZE ∧
    (txQueueStep s buffer size count).1.tx_data.length =
      CDC_TX_BUFFER_SIZE := by
  have hB : (CDC_TX_BUFFER_SIZE : ℕ) < 2 ^ 32 := by
    norm_num [CDC_TX_BUFFER_SIZE]
  have hfr : sub32 CDC_TX_BUFFER_SIZE s.tx_count =
      CDC_TX_BUFFER_SIZE - s.tx_count := sub32_eq h1 hB
  have hsp : sub32 CDC_TX_BUFFER_SIZE s.tx_write =
      CDC_TX_BUFFER_SIZE - s.tx_write := sub32_eq (Nat.le_of_lt h2) hB
  unfold txQueueStep
  dsimp only
  rw [hfr, hsp]
  set n0 := if CDC_TX_BUFFER_SIZE - s.tx_count >
      CDC_TX_BUFFER_SIZE - s.tx_write then CDC_TX_BUFFER_SIZE - s.tx_write
    else CDC_TX_BUFFER_SIZE - s.tx_count with hn0
  set n1 := if n0 > size - count then size - count else n0 with hn1
  have hn0b : n0 ≤ CDC_TX_BUFFER_SIZE - s.tx_count ∧
      n0 ≤ CDC_TX_BUFFER_SIZE - s.tx_write ∧ 1 ≤ n0 := by
    rw [hn0]; split <;> omega
  have hn1b : n1 ≤ n0 ∧ n1 ≤ size - count ∧ 1 ≤ n1 := by
    rw [hn1]; split <;> omega
  have hadd : add32 s.tx_count n1 = s.tx_count + n1 := by
    apply add32_eq
    omega
  refine ⟨hn1b.2.2, hn1b.2.1, hadd, ?_, ?_, ?_⟩
  · rw [hadd]; omega
  · simpa [CDC_TX_BUFFER_SIZE] using and255_lt (s.tx_write + n1)
  · rw [listCopy_length]
    · exact h3
    · rw [h3]
      have : (listSlice buffer count n1).length ≤ n1 := by
        unfold listSlice
        simp
      omega

theorem writeLoop_frame : ∀ (fuel : ℕ) (s : CDCState)
    (buffer : List ℕ) (size count : ℕ),
    (writeLoop fuel s buffer size count).1 =
      { s with
          tx_data := (writeLoop fuel s buffer size count).1.tx_data
          tx_write := (writeLoop fuel s buffer size count).1.tx_write
          tx_count := (writeLoop fuel s buffer size count).1.tx_count
          tx_size := (writeLoop fuel s buffer size count).1.tx_size
          busy := (writeLoop fuel s buffer size count).1.busy
          chunks := (writeLoop fuel s buffer size count).1.chunks } := by
  intro fuel
  induction fuel with
  | zero => intro s buffer size count; rfl
  | succ n ih =>
    intro s buffer size count
    rw [writeLoop]
    split
    · split
      · split <;> rfl
      · rw [ih, txQueueStep_frame s]
    · rfl

theorem writeLoop_facts : ∀ (fuel : ℕ) (s : CDCState)
    (buffer : List ℕ) (size count : ℕ),
    s.tx_count ≤ CDC_TX_BUFFER_SIZE → s.tx_write < CDC_TX_BUFFER_SIZE →
    s.tx_read < CDC_TX_BUFFER_SIZE →
    s.tx_data.length = CDC_TX_BUFFER_SIZE →
    s.tx_size ≤ s.tx_count →
    (s.busy = false → s.tx_size = 0) → (s.busy = true → 1 ≤ s.tx_size) →
    count ≤ size →
    (writeLoop fuel s buffer size count).1.tx_count ≤ CDC_TX_BUFFER_SIZE ∧
    (writeLoop fuel s buffer size count).1.tx_write < CDC_TX_BUFFER_SIZE ∧
    (writeLoop fuel s buffer size count).1.tx_data.length =
      CDC_TX_BUFFER_SIZE ∧
    (writeLoop fuel s buffer size count).1.tx_size ≤
      (writeLoop fuel s buffer size count).1.tx_count ∧
    ((writeLoop fuel s buffer size count).1.busy = false →
      (writeLoop fuel s buffer size count).1.tx_size = 0) ∧
    ((writeLoop fuel s buffer size count).1.busy = true →
      1 ≤ (writeLoop fuel s buffer size count).1.tx_size) ∧
    (writeLoop fuel s buffer size count).1.tx_count + count =
      s.tx_count + (writeLoop fuel s buffer size count).2.1 ∧
    count ≤ (writeLoop fuel s buffer size count).2.1 ∧
    (writeLoop fuel s buffer size count).2.1 ≤ size ∧
    ((writeLoop fuel s buffer size count).2.2 = true →
      (writeLoop fuel s buffer size count).2.1 = size ∧
      (writeLoop fuel s buffer size count).1.tx_size = s.tx_size ∧
      (writeLoop fuel s buffer size count).1.busy = s.busy ∧
      (writeLoop fuel s buffer size count).1.chunks = s.chunks) := by
  intro fuel
  induction fuel with
  | zero =>
    intro s buffer size count h1 h2 h3 h4 h5 h6 h7 h8
    exact ⟨h1, h2, h4, h5, h6, h7, rfl, le_rfl, h8,
      fun h => Bool.noConfusion h⟩
  | succ n ih =>
    intro s buffer size count h1 h2 h3 h4 h5 h6 h7 h8
    rw [writeLoop]
    split
    · rename_i hlt
      split
      · rename_i hzero
        split
        · rename_i hbusy
          have hle := txChunkSize_le_count (s := s) h3
          have hpos : 1 ≤ txChunkSize s := by
            apply txChunkSize_pos (s := s) h3
            have hB : (CDC_TX_BUFFER_SIZE : ℕ) < 2 ^ 32 := by
              norm_num [CDC_TX_BUFFER_SIZE]
            have hz := sub32_eq h1 hB
            rw [hz] at hzero
            have hBn : (0 : ℕ) < CDC_TX_BUFFER_SIZE := by
              norm_num [CDC_TX_BUFFER_SIZE]
            omega
          exact ⟨h1, h2, h4, hle, fun h => Bool.noConfusion h,
            fun _ => hpos, rfl, le_rfl, h8, fun h => Bool.noConfusion h⟩
        · exact ⟨h1, h2, h4, h5, h6, h7, rfl, le_rfl, h8,
            fun h => Bool.noConfusion h⟩
      · rename_i hzero
        have hB : (CDC_TX_BUFFER_SIZE : ℕ) < 2 ^ 32 := by
          norm_num [CDC_TX_BUFFER_SIZE]
        have hne : s.tx_count ≠ CDC_TX_BUFFER_SIZE := by
          intro h
          apply hzero
          rw [h]
          exact sub32_self _ hB
        have hq := txQueueStep_bounds s buffer size count h1 h2 h4 hne hlt
        have hqf := txQueueStep_frame s buffer size count
        have hq3 : (txQueueStep s buffer size count).1.tx_read = s.tx_read := by
          rw [hqf]
        have hq5 : (txQueueStep s buffer size count).1.tx_size = s.tx_size := by
          rw [hqf]
        have hq6 : (txQueueStep s buffer size count).1.busy = s.busy := by
          rw [hqf]
        have hq7 : (txQueueStep s buffer size count).1.chunks = s.chunks := by
          rw [hqf]
        have hcnt : count + (txQueueStep s buffer size count).2 ≤ size := by
          omega
        have hrec := ih (txQueueStep s buffer size count).1 buffer size
          (count + (txQueueStep s buffer size count).2)
          hq.2.2.2.1 hq.2.2.2.2.1 (by rw [hq3]; exact h3) hq.2.2.2.2.2
          (by rw [hq5, hq.2.2.1]; omega)
          (by rw [hq6, hq5]; exact h6) (by rw [hq6, hq5]; exact h7) hcnt
        refine ⟨hrec.1, hrec.2.1, hrec.2.2.1, hrec.2.2.2.1,
          hrec.2.2.2.2.1, hrec.2.2.2.2.2.1, ?_, ?_,
          hrec.2.2.2.2.2.2.2.2.1, ?_⟩
        · have h7a := hrec.2.2.2.2.2.2.1
          rw [hq.2.2.1] at h7a
          omega
        · have h8a := hrec.2.2.2.2.2.2.2.1
          omega
        · intro hdone
          have hd := hrec.2.2.2.2.2.2.2.2.2 hdone
          exact ⟨hd.1, by rw [hd.2.1, hq5], by rw [hd.2.2.1, hq6],
            by rw [hd.2.2.2, hq7]⟩
    · rename_i hge
      exact ⟨h1, h2, h4, h5, h6, h7, rfl, le_rfl, h8,
        fun _ => ⟨Nat.le_antisymm h8 (Nat.not_lt.mp hge), rfl, rfl, rfl⟩⟩

end CDC

namespace CDC

/-- Rejection case of `CDC::write`: below the ready state or with the
RTS bit of the line state clear, the call returns 0 and the state is
untouched. -/
theorem write_reject (fuel : ℕ) (s : CDCState) (isr : Bool)
    (buffer : List ℕ) (size0 : ℕ)
    (h : s.devState < USBD_CDC_STATE_READY ∨ s.lineState &&& 2 = 0) :
    write fuel s isr buffer size0 = (s, 0, true) := by
  rw [write, if_pos h]

theorem EventCallback_rx (fuel : ℕ) (s : CDCState) :
    (EventCallback fuel s USBD_CDC_EVENT_RECEIVE).1 = (rxOuter fuel s).1 ∧
    (EventCallback fuel s USBD_CDC_EVENT_RECEIVE).2 = (rxOuter fuel s).2 := by
  rw [EventCallback]
  norm_num [USBD_CDC_EVENT_RECEIVE, USBD_CDC_EVENT_TRANSMIT]
  split <;> simp_all

theorem rxOuter_inv {s : CDCState} (hs : BufInv s) (fuel : ℕ) :
    BufInv (rxOuter fuel s).1 := by
  have hb := rxOuter_bounds fuel s hs.rx_count_le hs.rx_write_lt hs.rx_data_len
  rw [rxOuter_frame]
  exact {
    rx_count_le := hb.1
    rx_read_lt := hs.rx_read_lt
    rx_write_lt := hb.2.1
    rx_data_len := hb.2.2
    tx_count_le := hs.tx_count_le
    tx_read_lt := hs.tx_read_lt
    tx_write_lt := hs.tx_write_lt
    tx_data_len := hs.tx_data_len
    size_le_count := hs.size_le_count
    count_eq_total := hs.count_eq_total
    idle_size := hs.idle_size
    busy_size := hs.busy_size }

theorem read1_inv {s : CDCState} (hs : BufInv s) :
    BufInv (read1 s).1 := by
  rcases read1_bounds s hs.rx_count_le with h | h
  · rw [read1_frame]
    exact {
      rx_count_le := h.1
      rx_read_lt := h.2
      rx_write_lt := hs.rx_write_lt
      rx_data_len := hs.rx_data_len
      tx_count_le := hs.tx_count_le
      tx_read_lt := hs.tx_read_lt
      tx_write_lt := hs.tx_write_lt
      tx_data_len := hs.tx_data_len
      size_le_count := hs.size_le_count
      count_eq_total := hs.count_eq_total
      idle_size := hs.idle_size
      busy_size := hs.busy_size }
  · rw [h]
    exact hs

theorem readBulkLoop_inv {s : CDCState} (hs : BufInv s)
    (fuel size count : ℕ) (out : List ℕ) :
    BufInv (readBulkLoop fuel s size count out).1 := by
  have hb := readBulkLoop_bounds fuel s size count out hs.rx_count_le
    hs.rx_read_lt
  rw [readBulkLoop_frame]
  exact {
    rx_count_le := hb.1
    rx_read_lt := hb.2
    rx_write_lt := hs.rx_write_lt
    rx_data_len := hs.rx_data_len
    tx_count_le := hs.tx_count_le
    tx_read_lt := hs.tx_read_lt
    tx_write_lt := hs.tx_write_lt
    tx_data_len := hs.tx_data_len
    size_le_count := hs.size_le_count
    count_eq_total := hs.count_eq_total
    idle_size := hs.idle_size
    busy_size := hs.busy_size }

end CDC

namespace CDC

theorem writeKick_inv {s : CDCState} (hs : BufInv s) (isr : Bool) :
    BufInv (writeKick s isr) := by
  unfold writeKick
  split
  · split
    · split
      · rename_i hne
        have hle := txChunkSize_le_count (s := s) hs.tx_read_lt
        have hpos := txChunkSize_pos (s := s) hs.tx_read_lt
          (Nat.pos_of_ne_zero hne)
        rw [startTx_frame]
        exact {
          rx_count_le := hs.rx_count_le
          rx_read_lt := hs.rx_read_lt
          rx_write_lt := hs.rx_write_lt
          rx_data_len := hs.rx_data_len
          tx_count_le := hs.tx_count_le
          tx_read_lt := hs.tx_read_lt
          tx_write_lt := hs.tx_write_lt
          tx_data_len := hs.tx_data_len
          size_le_count := hle
          count_eq_total := hs.count_eq_total
          idle_size := fun h => Bool.noConfusion h
          busy_size := fun _ => hpos }
      · exact hs
    · exact hs
  · exact hs

theorem write_inv {s : CDCState} (hs : BufInv s) (fuel : ℕ) (isr : Bool)
    (buffer : List ℕ) (size0 : ℕ)
    (hdone : (write fuel s isr buffer size0).2.2 = true) :
    BufInv (write fuel s isr buffer size0).1 := by
  by_cases hg : s.devState < USBD_CDC_STATE_READY ∨ s.lineState &&& 2 = 0
  · rw [write_reject fuel s isr buffer size0 hg]
    exact hs
  · rw [write, if_neg hg] at hdone ⊢
    have hfacts := writeLoop_facts fuel
      { s with tx_total := add32 s.tx_total (writeClamp s isr size0) }
      buffer (writeClamp s isr size0) 0 hs.tx_count_le hs.tx_write_lt
      hs.tx_read_lt hs.tx_data_len hs.size_le_count hs.idle_size
      hs.busy_size (Nat.zero_le _)
    by_cases hflag : (writeLoop fuel
        { s with tx_total := add32 s.tx_total (writeClamp s isr size0) }
        buffer (writeClamp s isr size0) 0).2.2 = true
    · rw [writeFinish, if_pos hflag] at hdone ⊢
      apply writeKick_inv _ isr
      have hd := hfacts.2.2.2.2.2.2.2.2.2 hflag
      have hcnt := hfacts.2.2.2.2.2.2.1
      have hsz : writeClamp s isr size0 ≤ CDC_TX_BUFFER_SIZE := by
        have h1 := hfacts.1
        omega
      have htot : add32 s.tx_total (writeClamp s isr size0) =
          s.tx_total + writeClamp s isr size0 := by
        apply add32_eq
        have hc := hs.tx_count_le
        have he := hs.count_eq_total
        have hB : (CDC_TX_BUFFER_SIZE : ℕ) < 2 ^ 31 := by
          norm_num [CDC_TX_BUFFER_SIZE]
        have : (2 : ℕ) ^ 31 + 2 ^ 31 ≤ 2 ^ 32 := by norm_num
        omega
      rw [writeLoop_frame]
      exact {
        rx_count_le := hs.rx_count_le
        rx_read_lt := hs.rx_read_lt
        rx_write_lt := hs.rx_write_lt
        rx_data_len := hs.rx_data_len
        tx_count_le := hfacts.1
        tx_read_lt := hs.tx_read_lt
        tx_write_lt := hfacts.2.1
        tx_data_len := hfacts.2.2.1
        size_le_count := hfacts.2.2.2.1
        count_eq_total := by
          dsimp only
          have e0 : ({ s with
              tx_total := add32 s.tx_total (writeClamp s isr size0) } :
              CDCState).tx_count = s.tx_count := rfl
          rw [e0, hd.1] at hcnt
          conv_rhs => rw [htot]
          have he := hs.count_eq_total
          omega
        idle_size := hfacts.2.2.2.2.1
        busy_size := hfacts.2.2.2.2.2.1 }
    · rw [writeFinish, if_neg hflag] at hdone
      exact absurd hdone hflag

end CDC

namespace CDC

theorem initState_inv (d l : ℕ) : BufInv (initState d l) :=
  { rx_count_le := by norm_num [initState]
    rx_read_lt := by norm_num [initState, CDC_RX_BUFFER_SIZE]
    rx_write_lt := by norm_num [initState, CDC_RX_BUFFER_SIZE]
    rx_data_len := by simp [initState]
    tx_count_le := by norm_num [initState]
    tx_read_lt := by norm_num [initState, CDC_TX_BUFFER_SIZE]
    tx_write_lt := by norm_num [initState, CDC_TX_BUFFER_SIZE]
    tx_data_len := by simp [initState]
    size_le_count := by norm_num [initState]
    count_eq_total := rfl
    idle_size := fun _ => rfl
    busy_size := fun h => Bool.noConfusion h }

theorem BufInv_fields {s t : CDCState} (hs : BufInv s)
    (e1 : t.rx_count = s.rx_count) (e2 : t.rx_read = s.rx_read)
    (e3 : t.rx_write = s.rx_write) (e4 : t.rx_data = s.rx_data)
    (e5 : t.tx_count = s.tx_count) (e6 : t.tx_read = s.tx_read)
    (e7 : t.tx_write = s.tx_write) (e8 : t.tx_data = s.tx_data)
    (e9 : t.tx_size = s.tx_size) (e10 : t.tx_total = s.tx_total)
    (e11 : t.busy = s.busy) : BufInv t :=
  { rx_count_le := e1 ▸ hs.rx_count_le
    rx_read_lt := e2 ▸ hs.rx_read_lt
    rx_write_lt := e3 ▸ hs.rx_write_lt
    rx_data_len := e4 ▸ hs.rx_data_len
    tx_count_le := e5 ▸ hs.tx_count_le
    tx_read_lt := e6 ▸ hs.tx_read_lt
    tx_write_lt := e7 ▸ hs.tx_write_lt
    tx_data_len := e8 ▸ hs.tx_data_len
    size_le_count := by rw [e9, e5]; exact hs.size_le_count
    count_eq_total := by rw [e5, e10]; exact hs.count_eq_total
    idle_size := by rw [e11, e9]; exact hs.idle_size
    busy_size := by rw [e11, e9]; exact hs.busy_size }

theorem Step_inv {s s' : CDCState} (hs : BufInv s) (h : Step s s') :
    BufInv s' := by
  cases h with
  | write isr buffer size fuel _ hdone =>
    exact write_inv hs fuel isr buffer size hdone
  | read1 _ => exact read1_inv hs
  | readBulk fuel size _ => exact readBulkLoop_inv hs fuel size 0 []
  | eventRx fuel _ =>
    rw [(EventCallback_rx fuel s).1]
    exact rxOuter_inv hs fuel
  | eventTx _ hb => exact evTxStep_inv hs hb
  | arrive bs _ =>
    exact BufInv_fields hs rfl rfl rfl rfl rfl rfl rfl rfl rfl rfl rfl
  | blockOnOverrun b _ =>
    exact BufInv_fields hs rfl rfl rfl rfl rfl rfl rfl rfl rfl rfl rfl
  | onReceive _ =>
    exact BufInv_fields hs rfl rfl rfl rfl rfl rfl rfl rfl rfl rfl rfl
  | onTransmit _ =>
    exact BufInv_fields hs rfl rfl rfl rfl rfl rfl rfl rfl rfl rfl rfl
  | setDevState d _ =>
    exact BufInv_fields hs rfl rfl rfl rfl rfl rfl rfl rfl rfl rfl rfl
  | setLineState l _ =>
    exact BufInv_fields hs rfl rfl rfl rfl rfl rfl rfl rfl rfl rfl rfl

theorem Reach_inv {s : CDCState} (h : Reach s) : BufInv s := by
  induction h with
  | init d l => exact initState_inv d l
  | step _ hst ih => exact Step_inv ih hst

end CDC

namespace CDC

theorem rxInner_empty2 : rxInner 2 emptyRxState 0 = (emptyRxState, 0, true) := by
  rw [rxInner]
  simp [rxStep, emptyRxState, initState, sub32, add32, listCopy,
    CDC_RX_BUFFER_SIZE]

theorem rxRound_empty : rxRound emptyRxState = (emptyRxState, true) := by
  have hp : emptyRxState.pending.length + 2 = 2 := rfl
  rw [rxRound, hp, rxInner_empty2]
  rw [if_neg]
  intro h
  exact Bool.noConfusion h.2

theorem rxOuter_empty : ∀ n : ℕ,
    rxOuter n emptyRxState = (emptyRxState, false) := by
  intro n
  induction n with
  | zero => rfl
  | succ k ih =>
    have hc : emptyRxState.rx_count ≠ CDC_RX_BUFFER_SIZE := by
      intro h
      rw [show emptyRxState.rx_count = 0 from rfl] at h
      norm_num [CDC_RX_BUFFER_SIZE] at h
    rw [rxOuter, if_pos hc, rxRound_empty]
    simpa using ih

theorem rxInner_cb2 (l : List ℕ) :
    rxInner 2 { rxCbState with rxNotify := l } 0 =
      ({ rxCbState with rxNotify := l }, 0, true) := by
  rw [rxInner]
  simp [rxStep, rxCbState, initState, sub32, add32, listCopy,
    CDC_RX_BUFFER_SIZE]

theorem rxRound_cb (l : List ℕ) :
    rxRound { rxCbState with rxNotify := l } =
      ({ rxCbState with rxNotify := l ++ [0] }, true) := by
  have hp : ({ rxCbState with rxNotify := l } : CDCState).pending.length + 2 =
      2 := rfl
  rw [rxRound, hp, rxInner_cb2]
  rw [if_pos ⟨rfl, rfl⟩]

theorem rxOuter_cb : ∀ (n : ℕ) (l : List ℕ),
    rxOuter n { rxCbState with rxNotify := l } =
      ({ rxCbState with rxNotify := l ++ List.replicate n 0 }, false) := by
  intro n
  induction n with
  | zero =>
    intro l
    rw [rxOuter]
    simp
  | succ k ih =>
    intro l
    have hc : ({ rxCbState with rxNotify := l } : CDCState).rx_count ≠
        CDC_RX_BUFFER_SIZE := by
      intro h
      rw [show ({ rxCbState with rxNotify := l } : CDCState).rx_count = 0
        from rfl] at h
      norm_num [CDC_RX_BUFFER_SIZE] at h
    rw [rxOuter, if_pos hc, rxRound_cb]
    have := ih (l ++ [0])
    simp only [List.replicate_succ]
    simpa [List.append_assoc] using this

end CDC

/-- C1: over every sequence of modelled operations (completed bulk/single
writes, single reads, bulk reads with any fuel, receive events with any
amount of drain processing, hardware transmit completions, and
environment actions), both occupancy counters stay between 0 and their
buffer's capacity. -/
theorem claim_C1_occupancy_invariant {s : CDCState} (h : Reach s) :
    0 ≤ s.rx_count ∧ s.rx_count ≤ CDC_RX_BUFFER_SIZE ∧
    0 ≤ s.tx_count ∧ s.tx_count ≤ CDC_TX_BUFFER_SIZE :=
  ⟨Nat.zero_le _, (CDC.Reach_inv h).rx_count_le, Nat.zero_le _,
    (CDC.Reach_inv h).tx_count_le⟩

/-- Witness for C1 at the freshly constructed state. -/
theorem claim_C1_occupancy_invariant_witness :
    0 ≤ (initState 3 3).rx_count ∧
    (initState 3 3).rx_count ≤ CDC_RX_BUFFER_SIZE ∧
    0 ≤ (initState 3 3).tx_count ∧
    (initState 3 3).tx_count ≤ CDC_TX_BUFFER_SIZE :=
  claim_C1_occupancy_invariant (Reach.init 3 3)

/-- C2 (refuted, code bug): with the device ready, the receive buffer
empty and the device stack holding no data, a receive-event invocation of
the callback never completes: however many outer rounds run, the state is
back at the entry state and the outer `while (_rx_count !=
CDC_RX_BUFFER_SIZE)` loop has not exited, because the loop only stops on
a full buffer and a zero-length chunk from the stack does not break it. -/
theorem claim_C2_rx_drain_never_exits (fuel : ℕ) :
    (CDC.EventCallback fuel emptyRxState USBD_CDC_EVENT_RECEIVE).2 = false ∧
    (CDC.EventCallback fuel emptyRxState USBD_CDC_EVENT_RECEIVE).1 =
      emptyRxState := by
  have h1 := (CDC.EventCallback_rx fuel emptyRxState).1
  have h2 := (CDC.EventCallback_rx fuel emptyRxState).2
  rw [CDC.rxOuter_empty] at h1 h2
  exact ⟨h2, h1⟩

/-- C3 (refuted, code bug): with two bytes queued, a bulk read of size 1
copies both bytes into the caller's buffer and reports 2 bytes moved,
because the loop body lacks the clamp of the span to `size - count`; the
claim demands exactly `min(size, _rx_count) = 1` byte. -/
theorem claim_C3_bulk_read_overshoot :
    twoByteRxState.rx_count = 2 ∧
    (CDC.readBulk 3 twoByteRxState 1).2.1 = [7, 9] ∧
    ¬ ((CDC.readBulk 3 twoByteRxState 1).2.1.length =
        min 1 twoByteRxState.rx_count) := by
  decide

/-- C6: whenever the device state is below ready or bit 1 (RTS) of the
line state is clear, `write` returns 0 and leaves the entire state — in
particular the transmit buffer, cursors, `_tx_count`, `_tx_total` and
`_tx_size` — unchanged. -/
theorem claim_C6_write_rejected_unchanged (fuel : ℕ) (s : CDCState)
    (isr : Bool) (buffer : List ℕ) (size0 : ℕ)
    (h : s.devState < USBD_CDC_STATE_READY ∨ s.lineState &&& 2 = 0) :
    CDC.write fuel s isr buffer size0 = (s, 0, true) :=
  CDC.write_reject fuel s isr buffer size0 h

/-- Witness for C6: a write of one byte on a device still in the INIT
state is rejected with no state change. -/
theorem claim_C6_write_rejected_unchanged_witness :
    CDC.write 3 (initState USBD_CDC_STATE_INIT 3) false [5] 1 =
      (initState USBD_CDC_STATE_INIT 3, 0, true) :=
  claim_C6_write_rejected_unchanged 3 (initState USBD_CDC_STATE_INIT 3)
    false [5] 1 (Or.inl (by decide))

/-- C7 (refuted, code bug): with the receive buffer empty, no data in
the device stack and a receive callback registered, the callback fires
once per outer round of the non-terminating drain loop — after `n` rounds
it has fired `n` times (each with total 0), not exactly once per
event-callback invocation. -/
theorem claim_C7_rx_notify_fires_unboundedly (n : ℕ) :
    ((CDC.EventCallback n rxCbState USBD_CDC_EVENT_RECEIVE).1).rxNotify =
      List.replicate n 0 := by
  have h1 := (CDC.EventCallback_rx n rxCbState).1
  have h : rxCbState = { rxCbState with rxNotify := ([] : List ℕ) } := rfl
  rw [h1, h, CDC.rxOuter_cb n []]
  simp

/-- C9 (refuted as stated): `availableForWrite` does depend on the device
state — on a device below the ready state with an empty transmit buffer
it returns 0, not `CDC_TX_BUFFER_SIZE - _tx_count` = 256. -/
theorem claim_C9_counterexample :
    ¬ (CDC.availableForWrite (initState USBD_CDC_STATE_INIT 3) =
        CDC_TX_BUFFER_SIZE -
          (initState USBD_CDC_STATE_INIT 3).tx_count) := by
  decide

/-- C9 (amended): `available()` returns the receive occupancy regardless
of the device state, and `availableForWrite()` returns the free transmit
space `CDC_TX_BUFFER_SIZE - _tx_count` when the device state is at least
ready, and 0 otherwise. -/
theorem claim_C9_available_amended (s : CDCState) :
    CDC.available s = s.rx_count ∧
    CDC.availableForWrite s =
      (if s.devState < USBD_CDC_STATE_READY then 0
       else CDC_TX_BUFFER_SIZE - s.tx_count) :=
  ⟨rfl, rfl⟩

/-- C10: in every reachable state the transmit bookkeeping chain
`_tx_size ≤ _tx_count ≤ _tx_total` holds, so `_tx_total = 0` implies the
transmit buffer is empty and no chunk is in flight. -/
theorem claim_C10_tx_bookkeeping {s : CDCState} (h : Reach s) :
    s.tx_size ≤ s.tx_count ∧ s.tx_count ≤ s.tx_total ∧
    (s.tx_total = 0 → s.tx_count = 0 ∧ s.tx_size = 0) := by
  have hi := CDC.Reach_inv h
  refine ⟨hi.size_le_count, le_of_eq hi.count_eq_total, fun h0 => ?_⟩
  have hc : s.tx_count = 0 := by rw [hi.count_eq_total, h0]
  exact ⟨hc, by have := hi.size_le_count; omega⟩

/-- Witness for C10 at the freshly constructed state. -/
theorem claim_C10_tx_bookkeeping_witness :
    (initState 3 3).tx_size ≤ (initState 3 3).tx_count ∧
    (initState 3 3).tx_count ≤ (initState 3 3).tx_total ∧
    ((initState 3 3).tx_total = 0 → (initState 3 3).tx_count = 0 ∧
      (initState 3 3).tx_size = 0) :=
  claim_C10_tx_bookkeeping (Reach.init 3 3)

namespace CDC

theorem writeLoop_completes : ∀ (fuel : ℕ) (s : CDCState)
    (buffer : List ℕ) (size count : ℕ),
    s.tx_count ≤ CDC_TX_BUFFER_SIZE → s.tx_write < CDC_TX_BUFFER_SIZE →
    s.tx_data.length = CDC_TX_BUFFER_SIZE →
    size - count ≤ CDC_TX_BUFFER_SIZE - s.tx_count →
    count ≤ size → size - count + 1 ≤ fuel →
    (writeLoop fuel s buffer size count).2.2 = true := by
  intro fuel
  induction fuel with
  | zero =>
    intro s buffer size count _ _ _ _ _ hf
    omega
  | succ n ih =>
    intro s buffer size count h1 h2 h3 hfree hcs hf
    rw [writeLoop]
    split
    · rename_i hlt
      have hB : (CDC_TX_BUFFER_SIZE : ℕ) < 2 ^ 32 := by
        norm_num [CDC_TX_BUFFER_SIZE]
      have hsub : sub32 CDC_TX_BUFFER_SIZE s.tx_count =
          CDC_TX_BUFFER_SIZE - s.tx_count := sub32_eq h1 hB
      rw [if_neg (by rw [hsub]; omega)]
      have hne : s.tx_count ≠ CDC_TX_BUFFER_SIZE := by omega
      have hq := txQueueStep_bounds s buffer size count h1 h2 h3 hne hlt
      apply ih
      · exact hq.2.2.2.1
      · exact hq.2.2.2.2.1
      · exact hq.2.2.2.2.2
      · rw [hq.2.2.1]
        omega
      · omega
      · omega
    · rfl

theorem writeClamp_eq {s : CDCState} (isr : Bool) (size0 : ℕ)
    (hnb : s.blocking = false ∨ isr = true)
    (h1 : s.tx_count ≤ CDC_TX_BUFFER_SIZE) :
    writeClamp s isr size0 = min size0 (CDC_TX_BUFFER_SIZE - s.tx_count) := by
  have hB : (CDC_TX_BUFFER_SIZE : ℕ) < 2 ^ 32 := by
    norm_num [CDC_TX_BUFFER_SIZE]
  have hsub : sub32 CDC_TX_BUFFER_SIZE s.tx_count =
      CDC_TX_BUFFER_SIZE - s.tx_count := sub32_eq h1 hB
  unfold writeClamp
  have hcond : (!s.blocking || isr) = true := by
    rcases hnb with h | h <;> simp [h]
  rw [hcond]
  simp only [if_true]
  rw [hsub]
  split <;> omega

end CDC

/-- C4: from any reachable state, a `write` with blocking disabled or
invoked in interrupt context, on a ready device with the RTS line
asserted, clamps the request to the free space up front, never reaches
the cooperative-yield spin (the call completes, which a blocked execution
never reports), and returns `min(size, CDC_TX_BUFFER_SIZE - _tx_count)`
within `size + 2` loop rounds. -/
theorem claim_C4_nonblocking_write_clamped {s : CDCState} (h : Reach s)
    (isr : Bool) (buffer : List ℕ) (size0 : ℕ)
    (hnb : s.blocking = false ∨ isr = true)
    (hready : ¬ (s.devState < USBD_CDC_STATE_READY ∨ s.lineState &&& 2 = 0)) :
    (CDC.write (size0 + 2) s isr buffer size0).2.1 =
      min size0 (CDC_TX_BUFFER_SIZE - s.tx_count) ∧
    (CDC.write (size0 + 2) s isr buffer size0).2.2 = true := by
  have hi := CDC.Reach_inv h
  have hclamp := CDC.writeClamp_eq isr size0 hnb hi.tx_count_le
  rw [CDC.write, if_neg hready]
  have hflag : (CDC.writeLoop (size0 + 2)
      { s with tx_total := add32 s.tx_total (CDC.writeClamp s isr size0) }
      buffer (CDC.writeClamp s isr size0) 0).2.2 = true := by
    apply CDC.writeLoop_completes
    · exact hi.tx_count_le
    · exact hi.tx_write_lt
    · exact hi.tx_data_len
    · rw [hclamp]
      have e : ({ s with
          tx_total := add32 s.tx_total (CDC.writeClamp s isr size0) } :
          CDCState).tx_count = s.tx_count := rfl
      rw [e]
      omega
    · exact Nat.zero_le _
    · rw [hclamp]
      omega
  have hfacts := CDC.writeLoop_facts (size0 + 2)
    { s with tx_total := add32 s.tx_total (CDC.writeClamp s isr size0) }
    buffer (CDC.writeClamp s isr size0) 0 hi.tx_count_le hi.tx_write_lt
    hi.tx_read_lt hi.tx_data_len hi.size_le_count hi.idle_size
    hi.busy_size (Nat.zero_le _)
  have hret := (hfacts.2.2.2.2.2.2.2.2.2 hflag).1
  rw [CDC.writeFinish, if_pos hflag]
  exact ⟨by rw [hret, hclamp], rfl⟩

/-- Witness for C4: from the freshly constructed ready state, an
interrupt-context write of three bytes returns min(3, 256) = 3 and
completes. -/
theorem claim_C4_nonblocking_write_clamped_witness :
    (CDC.write (3 + 2) (initState 3 3) true [1, 2, 3] 3).2.1 =
      min 3 (CDC_TX_BUFFER_SIZE - (initState 3 3).tx_count) ∧
    (CDC.write (3 + 2) (initState 3 3) true [1, 2, 3] 3).2.2 = true :=
  claim_C4_nonblocking_write_clamped (Reach.init 3 3) true [1, 2, 3] 3
    (Or.inr rfl) (by decide)

namespace CDC

theorem listSlice_length {l : List ℕ} {off n : ℕ} (h : off + n ≤ l.length) :
    (listSlice l off n).length = n := by
  unfold listSlice
  simp
  omega

theorem txChunkSize_le_span {s : CDCState}
    (hr : s.tx_read < CDC_TX_BUFFER_SIZE) :
    txChunkSize s ≤ CDC_TX_BUFFER_SIZE - s.tx_read := by
  unfold txChunkSize
  have hspan : sub32 CDC_TX_BUFFER_SIZE s.tx_read =
      CDC_TX_BUFFER_SIZE - s.tx_read :=
    sub32_eq (Nat.le_of_lt hr) (by norm_num [CDC_TX_BUFFER_SIZE])
  dsimp only
  rw [hspan]
  split <;> split <;> omega

theorem evTxStep_eq (s : CDCState) :
    evTxStep s = txEvent { s with busy := false } := by
  rw [evTxStep, EventCallback]
  norm_num [USBD_CDC_EVENT_RECEIVE, USBD_CDC_EVENT_TRANSMIT]

theorem evTxStep_chunks {s : CDCState} (hs : BufInv s) :
    ((evTxStep s).chunks.map List.length).sum =
      (s.chunks.map List.length).sum + (evTxStep s).tx_size ∧
    (∀ c ∈ (evTxStep s).chunks,
      c ∈ s.chunks ∨ c.length ≤ CDC_TX_PACKET_SIZE) ∧
    (evTxStep s).tx_count = s.tx_count - s.tx_size ∧
    ((evTxStep s).busy = true ∨ (evTxStep s).tx_count = 0) := by
  have hsize := hs.size_le_count
  have hcount := hs.tx_count_le
  have hB : (CDC_TX_BUFFER_SIZE : ℕ) < 2 ^ 32 := by
    norm_num [CDC_TX_BUFFER_SIZE]
  have hsub : sub32 s.tx_count s.tx_size = s.tx_count - s.tx_size :=
    sub32_eq hsize (by omega)
  have hsubt : sub32 s.tx_total s.tx_size = s.tx_total - s.tx_size := by
    apply sub32_eq (by rw [← hs.count_eq_total]; exact hsize)
    rw [← hs.count_eq_total]; omega
  rw [evTxStep_eq, txEvent]
  dsimp only
  rw [hsub, hsubt]
  set s1 : CDCState := { s with
    busy := false
    tx_read := (s.tx_read + s.tx_size) &&& (CDC_TX_BUFFER_SIZE - 1)
    tx_count := s.tx_count - s.tx_size
    tx_total := s.tx_total - s.tx_size
    tx_size := 0 } with hs1
  have hs1read : s1.tx_read < CDC_TX_BUFFER_SIZE := by
    rw [hs1]
    simpa [CDC_TX_BUFFER_SIZE] using and255_lt (s.tx_read + s.tx_size)
  have hlen : (listSlice s1.tx_data s1.tx_read (txChunkSize s1)).length =
      txChunkSize s1 := by
    apply listSlice_length
    have h1 := txChunkSize_le_span (s := s1) hs1read
    have h2 : s1.tx_data.length = CDC_TX_BUFFER_SIZE := hs.tx_data_len
    omega
  split
  · rename_i hne
    rw [startTx_frame]
    split
    · refine ⟨?_, ?_, rfl, Or.inl rfl⟩
      · dsimp only
        rw [List.map_append, List.sum_append]
        simp [hlen]
      · intro c hc
        dsimp only at hc
        rw [List.mem_append] at hc
        rcases hc with hc | hc
        · exact Or.inl hc
        · right
          rw [List.mem_singleton] at hc
          rw [hc, hlen]
          exact txChunkSize_le_packet hs1read
    · refine ⟨?_, ?_, rfl, Or.inl rfl⟩
      · dsimp only
        rw [List.map_append, List.sum_append]
        simp [hlen]
      · intro c hc
        dsimp only at hc
        rw [List.mem_append] at hc
        rcases hc with hc | hc
        · exact Or.inl hc
        · right
          rw [List.mem_singleton] at hc
          rw [hc, hlen]
          exact txChunkSize_le_packet hs1read
  · rename_i hzero
    push_neg at hzero
    split
    · exact ⟨by simp, fun c hc => Or.inl hc, rfl, Or.inr hzero⟩
    · exact ⟨by simp, fun c hc => Or.inl hc, rfl, Or.inr hzero⟩
end CDC

namespace CDC

theorem drainAll_spec : ∀ (n : ℕ) (s : CDCState), BufInv s →
    (s.busy = true ∨ s.tx_count = 0) → s.tx_count ≤ n →
    (drainAll (n + 1) s).busy = false ∧
    (drainAll (n + 1) s).tx_count = 0 ∧
    ((drainAll (n + 1) s).chunks.map List.length).sum + s.tx_size =
      (s.chunks.map List.length).sum + s.tx_count ∧
    ∀ c ∈ (drainAll (n + 1) s).chunks,
      c ∈ s.chunks ∨ c.length ≤ CDC_TX_PACKET_SIZE := by
  intro n
  induction n with
  | zero =>
    intro s hs hbc hle
    have hc0 : s.tx_count = 0 := by omega
    have hbusy : s.busy = false := by
      cases hb : s.busy
      · rfl
      · exfalso
        have h1 := hs.busy_size hb
        have h2 := hs.size_le_count
        omega
    have hsz : s.tx_size = 0 := hs.idle_size hbusy
    rw [drainAll, if_neg (by simp [hbusy])]
    exact ⟨hbusy, hc0, by omega, fun c hc => Or.inl hc⟩
  | succ k ih =>
    intro s hs hbc hle
    rw [drainAll]
    cases hb : s.busy
    · rw [if_neg (by simp [hb])]
      have hc0 : s.tx_count = 0 := by
        rcases hbc with h | h
        · rw [h] at hb; cases hb
        · exact h
      have hsz : s.tx_size = 0 := hs.idle_size hb
      exact ⟨hb, hc0, by omega, fun c hc => Or.inl hc⟩
    · rw [if_pos rfl]
      have hinv := evTxStep_inv hs hb
      have hch := evTxStep_chunks hs
      have hsz1 := hs.busy_size hb
      have hslc := hs.size_le_count
      have hle2 : (evTxStep s).tx_count ≤ k := by
        rw [hch.2.2.1]
        omega
      have ihx := ih (evTxStep s) hinv hch.2.2.2 hle2
      refine ⟨ihx.1, ihx.2.1, ?_, ?_⟩
      · have e1 := ihx.2.2.1
        have e2 := hch.1
        have e3 := hch.2.2.1
        omega
      · intro c hc
        rcases ihx.2.2.2 c hc with h | h
        · rcases hch.2.1 c h with h2 | h2
          · exact Or.inl h2
          · exact Or.inr h2
        · exact Or.inr h

theorem write_init_facts (bs : List ℕ) (h1 : 1 ≤ bs.length)
    (h2 : bs.length ≤ CDC_TX_BUFFER_SIZE) :
    (write (bs.length + 2) (initState USBD_CDC_STATE_READY 3) false bs
      bs.length).2.2 = true ∧
    (write (bs.length + 2) (initState USBD_CDC_STATE_READY 3) false bs
      bs.length).1.busy = true ∧
    (write (bs.length + 2) (initState USBD_CDC_STATE_READY 3) false bs
      bs.length).1.tx_count = bs.length ∧
    ((write (bs.length + 2) (initState USBD_CDC_STATE_READY 3) false bs
      bs.length).1.chunks.map List.length).sum =
      (write (bs.length + 2) (initState USBD_CDC_STATE_READY 3) false bs
        bs.length).1.tx_size ∧
    ∀ c ∈ (write (bs.length + 2) (initState USBD_CDC_STATE_READY 3) false bs
      bs.length).1.chunks, c.length ≤ CDC_TX_PACKET_SIZE := by
  have hg : ¬ ((initState USBD_CDC_STATE_READY 3).devState <
      USBD_CDC_STATE_READY ∨
      (initState USBD_CDC_STATE_READY 3).lineState &&& 2 = 0) := by decide
  have hcl : writeClamp (initState USBD_CDC_STATE_READY 3) false bs.length =
      bs.length := rfl
  have hinv0 := initState_inv USBD_CDC_STATE_READY 3
  have hc0 : ({ initState USBD_CDC_STATE_READY 3 with
      tx_total := add32 (initState USBD_CDC_STATE_READY 3).tx_total
        bs.length } : CDCState).tx_count = 0 := rfl
  have hflag : (writeLoop (bs.length + 2)
      { initState USBD_CDC_STATE_READY 3 with
        tx_total := add32 (initState USBD_CDC_STATE_READY 3).tx_total
          bs.length } bs bs.length 0).2.2 = true := by
    apply writeLoop_completes
    · rw [hc0]
      norm_num [CDC_TX_BUFFER_SIZE]
    · exact hinv0.tx_write_lt
    · exact hinv0.tx_data_len
    · rw [hc0]
      omega
    · exact Nat.zero_le _
    · omega
  have hfacts := writeLoop_facts (bs.length + 2)
    { initState USBD_CDC_STATE_READY 3 with
      tx_total := add32 (initState USBD_CDC_STATE_READY 3).tx_total
        bs.length } bs bs.length 0 (by rw [hc0]; norm_num [CDC_TX_BUFFER_SIZE])
    hinv0.tx_write_lt hinv0.tx_read_lt hinv0.tx_data_len
    hinv0.size_le_count hinv0.idle_size hinv0.busy_size (Nat.zero_le _)
  have hdone := hfacts.2.2.2.2.2.2.2.2.2 hflag
  have hcnt : (writeLoop (bs.length + 2)
      { initState USBD_CDC_STATE_READY 3 with
        tx_total := add32 (initState USBD_CDC_STATE_READY 3).tx_total
          bs.length } bs bs.length 0).1.tx_count = bs.length := by
    have h7 := hfacts.2.2.2.2.2.2.1
    rw [hc0] at h7
    rw [hdone.1] at h7
    omega
  have hbusy : (writeLoop (bs.length + 2)
      { initState USBD_CDC_STATE_READY 3 with
        tx_total := add32 (initState USBD_CDC_STATE_READY 3).tx_total
          bs.length } bs bs.length 0).1.busy = false := hdone.2.2.1
  have hchunks : (writeLoop (bs.length + 2)
      { initState USBD_CDC_STATE_READY 3 with
        tx_total := add32 (initState USBD_CDC_STATE_READY 3).tx_total
          bs.length } bs bs.length 0).1.chunks = [] := hdone.2.2.2
  have hread : (writeLoop (bs.length + 2)
      { initState USBD_CDC_STATE_READY 3 with
        tx_total := add32 (initState USBD_CDC_STATE_READY 3).tx_total
          bs.length } bs bs.length 0).1.tx_read = 0 := by
    rw [writeLoop_frame]
    rfl
  have hw : write (bs.length + 2) (initState USBD_CDC_STATE_READY 3) false bs
      bs.length =
      (startTx (writeLoop (bs.length + 2)
        { initState USBD_CDC_STATE_READY 3 with
          tx_total := add32 (initState USBD_CDC_STATE_READY 3).tx_total
            bs.length } bs bs.length 0).1, bs.length, true) := by
    rw [write, if_neg hg, hcl, writeFinish, if_pos hflag, writeKick,
      if_pos (show (!false) = true by decide),
      if_pos (by rw [hbusy]; decide),
      if_pos (by rw [hcnt]; omega), hdone.1]
  have hreadlt : (writeLoop (bs.length + 2)
      { initState USBD_CDC_STATE_READY 3 with
        tx_total := add32 (initState USBD_CDC_STATE_READY 3).tx_total
          bs.length } bs bs.length 0).1.tx_read < CDC_TX_BUFFER_SIZE := by
    rw [hread]
    norm_num [CDC_TX_BUFFER_SIZE]
  have hlen : (listSlice
      (writeLoop (bs.length + 2)
        { initState USBD_CDC_STATE_READY 3 with
          tx_total := add32 (initState USBD_CDC_STATE_READY 3).tx_total
            bs.length } bs bs.length 0).1.tx_data
      (writeLoop (bs.length + 2)
        { initState USBD_CDC_STATE_READY 3 with
          tx_total := add32 (initState USBD_CDC_STATE_READY 3).tx_total
            bs.length } bs bs.length 0).1.tx_read
      (txChunkSize (writeLoop (bs.length + 2)
        { initState USBD_CDC_STATE_READY 3 with
          tx_total := add32 (initState USBD_CDC_STATE_READY 3).tx_total
            bs.length } bs bs.length 0).1)).length =
      txChunkSize (writeLoop (bs.length + 2)
        { initState USBD_CDC_STATE_READY 3 with
          tx_total := add32 (initState USBD_CDC_STATE_READY 3).tx_total
            bs.length } bs bs.length 0).1 := by
    apply listSlice_length
    have ha := txChunkSize_le_span hreadlt
    have hb := hfacts.2.2.1
    omega
  rw [hw, startTx_frame]
  refine ⟨rfl, rfl, hcnt, ?_, ?_⟩
  · dsimp only
    rw [hchunks]
    simp [hlen]
  · intro c hc
    dsimp only at hc
    rw [hchunks] at hc
    simp only [List.nil_append, List.mem_singleton] at hc
    rw [hc, hlen]
    exact txChunkSize_le_packet hreadlt

end CDC

/-- C5: for a single `write` whose size exceeds the packet-size ceiling
(from the freshly constructed ready state, with the size within the
transmit capacity so the call completes), every chunk handed to the
device-stack `transmit` — by the write path and by the subsequent
transmit-complete event handling until the stack is idle — has length at
most `CDC_TX_PACKET_SIZE`, which is strictly below the next multiple of
the 64-byte native packet size, and the chunk lengths sum to the original
size. -/
theorem claim_C5_packet_ceiling (bs : List ℕ)
    (h1 : CDC_TX_PACKET_SIZE < bs.length)
    (h2 : bs.length ≤ CDC_TX_BUFFER_SIZE) :
    CDC_TX_PACKET_SIZE < 64 * ((USBD_CDC_FIFO_SIZE + 63) / 64) ∧
    (∀ c ∈ (CDC.drainAll (bs.length + 1)
        (CDC.write (bs.length + 2) (initState USBD_CDC_STATE_READY 3) false
          bs bs.length).1).chunks,
      c.length ≤ CDC_TX_PACKET_SIZE) ∧
    (((CDC.drainAll (bs.length + 1)
        (CDC.write (bs.length + 2) (initState USBD_CDC_STATE_READY 3) false
          bs bs.length).1).chunks).map List.length).sum = bs.length := by
  have h0 : 1 ≤ bs.length := by
    have hp : CDC_TX_PACKET_SIZE = 127 := by decide
    omega
  have hw := CDC.write_init_facts bs h0 h2
  have hinv := CDC.write_inv (CDC.initState_inv USBD_CDC_STATE_READY 3)
    (bs.length + 2) false bs bs.length hw.1
  have hd := CDC.drainAll_spec bs.length _ hinv (Or.inl hw.2.1)
    (le_of_eq hw.2.2.1)
  refine ⟨by decide, ?_, ?_⟩
  · intro c hc
    rcases hd.2.2.2 c hc with h | h
    · exact hw.2.2.2.2 c h
    · exact h
  · have e1 := hd.2.2.1
    have e2 := hw.2.2.2.1
    have e3 := hw.2.2.1
    omega

set_option maxRecDepth 4096 in
/-- Witness for C5: a single write of 128 bytes (above the ceiling 127)
is transmitted in chunks of at most 127 bytes summing to 128. -/
theorem claim_C5_packet_ceiling_witness :
    CDC_TX_PACKET_SIZE < 64 * ((USBD_CDC_FIFO_SIZE + 63) / 64) ∧
    (∀ c ∈ (CDC.drainAll ((List.range 128).length + 1)
        (CDC.write ((List.range 128).length + 2)
          (initState USBD_CDC_STATE_READY 3) false (List.range 128)
          (List.range 128).length).1).chunks,
      c.length ≤ CDC_TX_PACKET_SIZE) ∧
    (((CDC.drainAll ((List.range 128).length + 1)
        (CDC.write ((List.range 128).length + 2)
          (initState USBD_CDC_STATE_READY 3) false (List.range 128)
          (List.range 128).length).1).chunks).map List.length).sum =
      (List.range 128).length :=
  claim_C5_packet_ceiling (List.range 128) (by decide) (by decide)

namespace CDC

set_option maxRecDepth 10000 in
theorem txQueueStep_init (bs : List ℕ) (h1 : 1 ≤ bs.length)
    (h2 : bs.length ≤ 64) :
    txQueueStep
      { initState USBD_CDC_STATE_READY 3 with
        tx_total := add32 (initState USBD_CDC_STATE_READY 3).tx_total
          bs.length } bs bs.length 0 = (wMid bs, bs.length) := by
  have hlt : bs.length < 256 := by omega
  have hmod : bs.length % 4294967296 = bs.length :=
    Nat.mod_eq_of_lt (by omega)
  unfold txQueueStep
  simp [initState, wMid, sub32, add32, CDC_TX_BUFFER_SIZE,
    CDC_RX_BUFFER_SIZE, listSlice, listCopy, List.drop_replicate, hlt, hmod]
  exact List.drop_replicate 0 bs.length 256

theorem writeLoop_init (bs : List ℕ) (h1 : 1 ≤ bs.length)
    (h2 : bs.length ≤ 64) :
    writeLoop (bs.length + 2)
      { initState USBD_CDC_STATE_READY 3 with
        tx_total := add32 (initState USBD_CDC_STATE_READY 3).tx_total
          bs.length } bs bs.length 0 = (wMid bs, bs.length, true) := by
  have hf : bs.length + 2 = (bs.length + 1) + 1 := rfl
  have hc : ({ initState USBD_CDC_STATE_READY 3 with
      tx_total := add32 (initState USBD_CDC_STATE_READY 3).tx_total
        bs.length } : CDCState).tx_count = 0 := rfl
  rw [hf, writeLoop]
  rw [if_pos (by omega : 0 < bs.length)]
  rw [if_neg (by rw [hc]; decide)]
  rw [txQueueStep_init bs h1 h2]
  rw [writeLoop]
  rw [if_neg (by omega : ¬ (0 + bs.length < bs.length))]
  simp

theorem txChunkSize_wMid (bs : List ℕ) (h2 : bs.length ≤ 64) :
    txChunkSize (wMid bs) = bs.length := by
  unfold txChunkSize
  dsimp only
  have e1 : (wMid bs).tx_count = bs.length := rfl
  have e2 : sub32 CDC_TX_BUFFER_SIZE (wMid bs).tx_read = 256 := by
    rw [show (wMid bs).tx_read = 0 from rfl]
    decide
  have hp : CDC_TX_PACKET_SIZE = 127 := by decide
  rw [e1, e2]
  rw [if_neg (show ¬ (bs.length > 256) by omega)]
  rw [if_neg (show ¬ (bs.length > CDC_TX_PACKET_SIZE) by rw [hp]; omega)]

theorem startTx_wMid (bs : List ℕ) (h2 : bs.length ≤ 64) :
    startTx (wMid bs) = wDone bs := by
  rw [startTx_frame, txChunkSize_wMid bs h2]
  have hsl : listSlice (wMid bs).tx_data (wMid bs).tx_read bs.length = bs := by
    have ed : (wMid bs).tx_data =
        bs ++ List.replicate (CDC_TX_BUFFER_SIZE - bs.length) 0 := rfl
    have er : (wMid bs).tx_read = 0 := rfl
    rw [ed, er]
    simp [listSlice, List.take_left]
  rw [hsl]
  rfl

theorem write_init_eq (bs : List ℕ) (h1 : 1 ≤ bs.length)
    (h2 : bs.length ≤ 64) :
    write (bs.length + 2) (initState USBD_CDC_STATE_READY 3) false bs
      bs.length = (wDone bs, bs.length, true) := by
  have hg : ¬ ((initState USBD_CDC_STATE_READY 3).devState <
      USBD_CDC_STATE_READY ∨
      (initState USBD_CDC_STATE_READY 3).lineState &&& 2 = 0) := by decide
  have hcl : writeClamp (initState USBD_CDC_STATE_READY 3) false bs.length =
      bs.length := rfl
  rw [write, if_neg hg, hcl, writeLoop_init bs h1 h2, writeFinish]
  rw [if_pos (show ((wMid bs, bs.length, true) :
    CDCState × ℕ × Bool).2.2 = true from rfl)]
  rw [writeKick, if_pos (show (!false) = true by decide)]
  rw [if_pos (by rw [show (wMid bs).busy = false from rfl]; decide)]
  rw [if_pos (by rw [show (wMid bs).tx_count = bs.length from rfl]; omega)]
  rw [startTx_wMid bs h2]

end CDC

namespace CDC

theorem drainAll_idle : ∀ (n : ℕ) (s : CDCState), s.busy = false →
    drainAll n s = s := by
  intro n
  induction n with
  | zero => intro s _; rfl
  | succ k ih =>
    intro s hb
    rw [drainAll, if_neg (by simp [hb])]

set_option maxRecDepth 10000 in
theorem evTxStep_wDone (bs : List ℕ) (h1 : 1 ≤ bs.length)
    (h2 : bs.length ≤ 64) :
    evTxStep (wDone bs) = txDrained bs := by
  have hmod : bs.length % 4294967296 = bs.length :=
    Nat.mod_eq_of_lt (by omega)
  rw [evTxStep_eq, txEvent]
  dsimp only
  simp [wDone, wMid, txDrained, initState, sub32, add32,
    CDC_TX_BUFFER_SIZE, CDC_RX_BUFFER_SIZE, hmod]

theorem drain_wDone (bs : List ℕ) (h1 : 1 ≤ bs.length)
    (h2 : bs.length ≤ 64) :
    drainAll (bs.length + 1) (wDone bs) = txDrained bs := by
  rw [drainAll, if_pos (show (wDone bs).busy = true from rfl),
    evTxStep_wDone bs h1 h2]
  exact drainAll_idle bs.length (txDrained bs) rfl

end CDC

namespace CDC

set_option maxRecDepth 10000 in
theorem rxStep_echoed (bs : List ℕ) (h1 : 1 ≤ bs.length)
    (h2 : bs.length ≤ 64) :
    rxStep (echoed bs) = (rxLoaded bs, bs.length) := by
  have hmod : bs.length % 4294967296 = bs.length :=
    Nat.mod_eq_of_lt (by omega)
  unfold rxStep
  dsimp only
  simp [echoed, txDrained, wDone, wMid, rxLoaded, initState, sub32, add32,
    CDC_RX_BUFFER_SIZE, CDC_TX_BUFFER_SIZE, listCopy, hmod,
    List.drop_replicate]
  have hmin : (64 : ℕ) ⊓ bs.length = bs.length := by omega
  rw [hmin, List.take_length]
  refine ⟨⟨?_, rfl, hmod, h2⟩, h2⟩
  exact congrArg (bs ++ ·) (List.drop_replicate 0 bs.length 64)

set_option maxRecDepth 10000 in
theorem rxStep_rxLoaded (bs : List ℕ) (h1 : 1 ≤ bs.length)
    (h2 : bs.length ≤ 64) :
    rxStep (rxLoaded bs) = (rxLoaded bs, 0) := by
  have hmod : bs.length % 4294967296 = bs.length :=
    Nat.mod_eq_of_lt (by omega)
  have hmm : bs.length % 64 % 64 = bs.length % 64 :=
    Nat.mod_eq_of_lt (Nat.mod_lt _ (by norm_num))
  unfold rxStep
  dsimp only
  simp [rxLoaded, echoed, txDrained, wDone, wMid, initState, sub32, add32,
    CDC_RX_BUFFER_SIZE, CDC_TX_BUFFER_SIZE, listCopy, hmod, hmm,
    and63_eq_mod]

end CDC

namespace CDC

theorem rxInner_echoed (bs : List ℕ) (h1 : 1 ≤ bs.length)
    (h2 : bs.length ≤ 64) :
    rxInner ((echoed bs).pending.length + 2) (echoed bs) 0 =
      (rxLoaded bs, bs.length, true) := by
  have hsub : sub32 CDC_RX_BUFFER_SIZE bs.length = 64 - bs.length := by
    rw [show CDC_RX_BUFFER_SIZE = 64 from rfl]
    exact sub32_eq (by omega) (by norm_num)
  have hf : (echoed bs).pending.length + 2 = (bs.length + 1) + 1 := rfl
  rw [hf, rxInner]
  rw [if_neg (by rw [show (echoed bs).rx_count = 0 from rfl]; decide)]
  rw [rxStep_echoed bs h1 h2]
  dsimp only
  rw [if_pos (by omega : (bs.length ≠ 0))]
  rw [rxInner]
  rcases Nat.lt_or_ge bs.length 64 with hL | hL
  · rw [if_neg (by
      rw [show (rxLoaded bs).rx_count = bs.length from rfl, hsub]
      omega)]
    rw [rxStep_rxLoaded bs h1 h2]
    dsimp only
    rw [if_neg (by omega : ¬ ((0 : ℕ) ≠ 0))]
    simp
  · have hL64 : bs.length = 64 := by omega
    rw [if_pos (by
      rw [show (rxLoaded bs).rx_count = bs.length from rfl, hL64]
      decide)]
    simp

theorem rxRound_echoed (bs : List ℕ) (h1 : 1 ≤ bs.length)
    (h2 : bs.length ≤ 64) :
    rxRound (echoed bs) = (rxLoaded bs, true) := by
  rw [rxRound, rxInner_echoed bs h1 h2]
  rw [if_neg (fun h => Bool.noConfusion h.2)]

theorem rxInner_rxLoaded (bs : List ℕ) (h1 : 1 ≤ bs.length)
    (h2 : bs.length ≤ 64) :
    rxInner ((rxLoaded bs).pending.length + 2) (rxLoaded bs) 0 =
      (rxLoaded bs, 0, true) := by
  have hsub : sub32 CDC_RX_BUFFER_SIZE bs.length = 64 - bs.length := by
    rw [show CDC_RX_BUFFER_SIZE = 64 from rfl]
    exact sub32_eq (by omega) (by norm_num)
  have hf : (rxLoaded bs).pending.length + 2 = 1 + 1 := rfl
  rw [hf, rxInner]
  rcases Nat.lt_or_ge bs.length 64 with hL | hL
  · rw [if_neg (by
      rw [show (rxLoaded bs).rx_count = bs.length from rfl, hsub]
      omega)]
    rw [rxStep_rxLoaded bs h1 h2]
    dsimp only
    rw [if_neg (by omega : ¬ ((0 : ℕ) ≠ 0))]
  · have hL64 : bs.length = 64 := by omega
    rw [if_pos (by
      rw [show (rxLoaded bs).rx_count = bs.length from rfl, hL64]
      decide)]

theorem rxRound_rxLoaded (bs : List ℕ) (h1 : 1 ≤ bs.length)
    (h2 : bs.length ≤ 64) :
    rxRound (rxLoaded bs) = (rxLoaded bs, true) := by
  rw [rxRound, rxInner_rxLoaded bs h1 h2]
  rw [if_neg (fun h => by
    have hx := h.1
    rw [show (rxLoaded bs).rx_count = bs.length from rfl] at hx
    omega)]

theorem rxOuter_echoed (bs : List ℕ) (h1 : 1 ≤ bs.length)
    (h2 : bs.length ≤ 64) :
    (rxOuter 2 (echoed bs)).1 = rxLoaded bs := by
  rw [rxOuter]
  rw [if_pos (by rw [show (echoed bs).rx_count = 0 from rfl]; decide)]
  rw [rxRound_echoed bs h1 h2]
  dsimp only
  rw [if_pos rfl]
  rw [rxOuter]
  rcases Nat.lt_or_ge bs.length 64 with hL | hL
  · rw [if_pos (by
      rw [show (rxLoaded bs).rx_count = bs.length from rfl,
        show CDC_RX_BUFFER_SIZE = 64 from rfl]
      omega)]
    rw [rxRound_rxLoaded bs h1 h2]
    dsimp only
    rw [if_pos rfl]
    rfl
  · have hL64 : bs.length = 64 := by omega
    rw [if_neg (by
      rw [show (rxLoaded bs).rx_count = bs.length from rfl, hL64]
      decide)]

end CDC

namespace CDC

theorem echoStep_txDrained (bs : List ℕ) :
    echoStep (txDrained bs) = echoed bs := by
  rw [echoStep]
  rw [show (txDrained bs).pending = [] from rfl]
  rw [show (txDrained bs).chunks = [bs] from rfl]
  simp [flat]
  rfl

set_option maxRecDepth 10000 in
theorem rxPopStep_rxLoaded (bs : List ℕ) (h1 : 1 ≤ bs.length)
    (h2 : bs.length ≤ 64) :
    rxPopStep (rxLoaded bs) =
      ({ rxLoaded bs with
          rx_read := bs.length &&& (CDC_RX_BUFFER_SIZE - 1)
          rx_count := 0 }, bs.length, bs) := by
  have hlt : ¬ (bs.length > 64) := by omega
  unfold rxPopStep
  dsimp only
  simp [rxLoaded, echoed, txDrained, wDone, wMid, initState, sub32,
    UART_RX_BUFFER_SIZE, CDC_RX_BUFFER_SIZE, CDC_TX_BUFFER_SIZE, listSlice,
    List.take_left, hlt]

theorem readBulk_rxLoaded (bs : List ℕ) (h1 : 1 ≤ bs.length)
    (h2 : bs.length ≤ 64) :
    (readBulk (CDC_RX_BUFFER_SIZE + 2) (rxLoaded bs)
      CDC_RX_BUFFER_SIZE).2.1 = bs := by
  rw [readBulk]
  have hf : CDC_RX_BUFFER_SIZE + 2 = 65 + 1 := rfl
  rw [hf, readBulkLoop]
  rw [if_pos (by decide : (0 : ℕ) < CDC_RX_BUFFER_SIZE)]
  rw [if_neg (by rw [show (rxLoaded bs).rx_count = bs.length from rfl]; omega)]
  rw [rxPopStep_rxLoaded bs h1 h2]
  dsimp only
  rw [show (65 : ℕ) = 64 + 1 from rfl, readBulkLoop]
  rcases Nat.lt_or_ge bs.length 64 with hL | hL
  · rw [if_pos (by
      rw [show CDC_RX_BUFFER_SIZE = 64 from rfl]
      omega)]
    rw [if_pos rfl]
    simp
  · rw [if_neg (by
      rw [show CDC_RX_BUFFER_SIZE = 64 from rfl]
      omega)]
    simp

theorem roundTrip_eq (bs : List ℕ) (h1 : 1 ≤ bs.length)
    (h2 : bs.length ≤ 64) : roundTrip bs = bs := by
  rw [roundTrip, write_init_eq bs h1 h2]
  rw [show ((wDone bs, bs.length, true) :
    CDCState × ℕ × Bool).1 = wDone bs from rfl]
  rw [drain_wDone bs h1 h2, echoStep_txDrained bs]
  rw [(EventCallback_rx 2 (echoed bs)).1, rxOuter_echoed bs h1 h2]
  exact readBulk_rxLoaded bs h1 h2

end CDC

set_option maxRecDepth 100000 in
/-- C8: round-trip identity — every byte sequence within the buffer
capacities, accepted by a bulk `write` from the freshly constructed ready
state, fully drained through the device-stack model, echoed back through
a receive event, and read back by a bulk `read`, comes back unchanged and
in order. -/
theorem claim_C8_round_trip (bs : List ℕ)
    (h : bs.length ≤ CDC_RX_BUFFER_SIZE) : roundTrip bs = bs := by
  rcases Nat.eq_zero_or_pos bs.length with h0 | h0
  · rw [List.length_eq_zero.mp h0]
    decide
  · apply CDC.roundTrip_eq bs h0
    rw [show CDC_RX_BUFFER_SIZE = 64 from rfl] at h
    exact h

/-- Witness for C8 on the concrete sequence [3, 1, 4]. -/
theorem claim_C8_round_trip_witness : roundTrip [3, 1, 4] = [3, 1, 4] :=
  claim_C8_round_trip [3, 1, 4] (by decide)
